import Mathlib

/-!
Shallow embedding of the RTEdbg on-target recording engine (rtedbg.c,
rtedbg_int.h, rtedbg.h, Portable/CPU/Generic/rtedbg_generic_atomic.h).

Machine integers are modelled as Nat with explicit reductions modulo 2^32
(and 2^64 for the packing accumulator) exactly where the C types truncate.
The global g_rtedbg structure is the record Rtedbg; the compile-time
configuration macros are gathered in RteConfig.  Each C function becomes a
pure state transformer; the timestamp counter sample (an external input in
the C code) is passed as an explicit argument.  The CAS loop of the
reservation macro is modelled by its sequential (quiescent) semantics: the
compare-and-swap succeeds, which is the behaviour observed by a single
producer or after all producers quiesce.
-/

def two31 : Nat := 2147483648
def two32 : Nat := 4294967296
def two64 : Nat := 18446744073709551616

/-- Compile-time configuration macros from rtedbg_config.h. -/
structure RteConfig where
  fmtIdBits : Nat              -- RTE_FMT_ID_BITS (9 .. 16)
  bufferSize : Nat             -- RTE_BUFFER_SIZE (capacity in words)
  maxSubpackets : Nat          -- RTE_MAX_SUBPACKETS (1 .. 256)
  timestampShift : Nat         -- RTE_TIMESTAMP_SHIFT (1 .. 16)
  msgFilteringEnabled : Bool   -- RTE_MSG_FILTERING_ENABLED
  filterOffEnabled : Bool      -- RTE_FILTER_OFF_ENABLED
  firmwareMaySetFilter : Bool  -- RTE_FIRMWARE_MAY_SET_FILTER
  singleShotEnabled : Bool     -- RTE_SINGLE_SHOT_ENABLED
  stopAtFirstTooLargeMsg : Bool -- RTE_STOP_SINGLE_SHOT_AT_FIRST_TOO_LARGE_MSG defined
  discardTooLongMessages : Bool -- RTE_DISCARD_TOO_LONG_MESSAGES
  useLongTimestamp : Bool      -- RTE_USE_LONG_TIMESTAMP
  deriving Repr, DecidableEq

/-- Global data logging structure rtedbg_t (g_rtedbg). -/
structure Rtedbg where
  buf_index : Nat              -- volatile uint32_t buf_index
  filter : Nat                 -- volatile uint32_t filter
  rte_cfg : Nat                -- uint32_t rte_cfg
  timestamp_frequency : Nat    -- uint32_t timestamp_frequency
  filter_copy : Nat            -- uint32_t filter_copy
  buffer_size : Nat            -- uint32_t buffer_size
  buffer : List Nat            -- uint32_t buffer[RTE_BUFFER_SIZE + 4]
  deriving Repr, DecidableEq

def RTE_ERASED_STATE : Nat := 0xFFFFFFFF

def RTE_FORCE_ENABLE_ALL_FILTERS : Nat := 0x7FFFFFFF

/-- Macro RTE_IS_POWER_OF_2 from rtedbg_int.h: n equals one of 2^2 .. 2^31. -/
def RTE_IS_POWER_OF_2 (n : Nat) : Bool :=
  (List.range 30).any (fun k => n == 2 ^ (k + 2))

/-- Macro RTE_LIMIT_INDEX from rtedbg_int.h.  For a power-of-two buffer size
the index is masked with size - 1; otherwise an index at or past the end is
reset to zero. -/
def RTE_LIMIT_INDEX (cfg : RteConfig) (idx : Nat) : Nat :=
  if RTE_IS_POWER_OF_2 cfg.bufferSize then idx &&& (cfg.bufferSize - 1)
  else if idx ≥ cfg.bufferSize then 0 else idx

def RTE_TIMESTAMP_MASK (cfg : RteConfig) : Nat := 0xFFFFFFFF >>> cfg.fmtIdBits

/-- Timestamp value as computed in every logging function:
(rte_get_timestamp() >> (RTE_TIMESTAMP_SHIFT - 1)) & RTE_TIMESTAMP_MASK.
The raw counter sample ts is an input. -/
def rteTimestamp (cfg : RteConfig) (ts : Nat) : Nat :=
  (ts >>> (cfg.timestampShift - 1)) &&& RTE_TIMESTAMP_MASK cfg

/-- Macro RTE_MESSAGE_DISABLED from rtedbg_int.h: the message is discarded
when the 32-bit value filter << (fmt >> (RTE_FMT_ID_BITS - shift_bits)),
reinterpreted as int32_t, is non-negative (sign bit clear).  When message
filtering is compiled out the macro is the constant 0 (never disabled). -/
def RTE_MESSAGE_DISABLED (cfg : RteConfig) (filter fmt shiftBits : Nat) : Bool :=
  if cfg.msgFilteringEnabled then
    decide ((filter <<< (fmt >>> (cfg.fmtIdBits - shiftBits))) % two32 < two31)
  else false

/-- Macro RTE_PACK from rtedbg.h (non-minimized build): pack the filter
number and format ID into one word and pre-shift it by the argument count. -/
def RTE_PACK (cfg : RteConfig) (filterNo fmt shift : Nat) : Nat :=
  (((if cfg.msgFilteringEnabled then filterNo &&& 0x1F else 0) <<< cfg.fmtIdBits) |||
    (fmt &&& ((1 <<< cfg.fmtIdBits) - 1))) >>> shift

/-- Macro RTE_PACK_MSGX from rtedbg.h: same packing, pre-shifted by 4. -/
def RTE_PACK_MSGX (cfg : RteConfig) (filterNo fmt : Nat) : Nat :=
  RTE_PACK cfg filterNo fmt 4

def RTE_MAX_MSG_SIZE (cfg : RteConfig) : Nat := cfg.maxSubpackets * 4 * 4

def RTE_MAX_MSGX_SIZE (cfg : RteConfig) : Nat :=
  if cfg.maxSubpackets > 16 then 256 else cfg.maxSubpackets * 16

def RTE_HDR_SIZE : Nat := 6

/-- Macro RTE_CONFIG_ID from rtedbg_int.h (bit 0 is reserved for the
single-shot-active flag and added separately by rte_init). -/
def RTE_CONFIG_ID (cfg : RteConfig) : Nat :=
  (if cfg.msgFilteringEnabled then 1 else 0) * 2 +
  (if cfg.filterOffEnabled then 1 else 0) * 4 +
  (if cfg.singleShotEnabled then 1 else 0) * 8 +
  (if cfg.useLongTimestamp then 1 else 0) * 16 +
  (cfg.timestampShift - 1) * 256 +
  (cfg.fmtIdBits - 9) * 4096 +
  (cfg.maxSubpackets &&& 0xFF) * 65536 +
  RTE_HDR_SIZE * 16777216 +
  (if RTE_IS_POWER_OF_2 cfg.bufferSize then 1 else 0) * 2147483648

/-- Macro RTE_RESERVE_SPACE from rtedbg_generic_atomic.h, sequential
semantics (the weak CAS succeeds).  Result: the updated state and some idx
(the pre-advance index after RTE_LIMIT_INDEX) on success, or none when the
single-shot variant refuses because the message does not fit; on refusal
the filter is cleared only when RTE_STOP_SINGLE_SHOT_AT_FIRST_TOO_LARGE_MSG
is configured (macro RTE_STOP_MESSAGE_LOGGING in rtedbg_int.h). -/
def RTE_RESERVE_SPACE (cfg : RteConfig) (st : Rtedbg) (size : Nat) :
    Rtedbg × Option Nat :=
  let tmp := st.buf_index
  if cfg.singleShotEnabled = true ∧ st.rte_cfg &&& 1 ≠ 0 ∧
      (tmp + size) % two32 ≥ cfg.bufferSize then
    (if cfg.stopAtFirstTooLargeMsg = true then { st with filter := 0 } else st, none)
  else
    let idx := RTE_LIMIT_INDEX cfg tmp
    ({ st with buf_index := (idx + size) % two32 }, some idx)

/-- One step of the bit-harvest union rte_pack_data_t: the 64-bit value acc
has the DATA word in its low half and the harvested bits in its high half.
The C sequence  data.w32.data = d; data.w64 <<= 1  replaces the low word by
d and shifts the whole 64-bit accumulator left by one. -/
def packStep (acc d : Nat) : Nat := ((acc / two32 * two32 + d) * 2) % two64

/-- Function __rte_msg0 from rtedbg.c (RTE_MINIMIZED_CODE_SIZE == 0). -/
def __rte_msg0 (cfg : RteConfig) (st : Rtedbg) (ts fmt_id : Nat) : Rtedbg :=
  if RTE_MESSAGE_DISABLED cfg st.filter fmt_id 0 then st else
  match RTE_RESERVE_SPACE cfg st 1 with
  | (st1, none) => st1
  | (st1, some idx) =>
    let timestamp := rteTimestamp cfg ts
    let w := timestamp ||| 1 ||| ((fmt_id <<< (32 - cfg.fmtIdBits)) % two32)
    { st1 with buffer := st1.buffer.set idx w }

/-- Function __rte_msg1 from rtedbg.c (RTE_MINIMIZED_CODE_SIZE == 0). -/
def __rte_msg1 (cfg : RteConfig) (st : Rtedbg) (ts fmt_id d1 : Nat) : Rtedbg :=
  if RTE_MESSAGE_DISABLED cfg st.filter fmt_id 1 then st else
  match RTE_RESERVE_SPACE cfg st 2 with
  | (st1, none) => st1
  | (st1, some idx) =>
    let acc0 := fmt_id * two32
    let acc1 := packStep acc0 d1
    let timestamp := rteTimestamp cfg ts
    let fmtWord := timestamp ||| 1 ||| (((acc1 / two32) <<< (32 - cfg.fmtIdBits)) % two32)
    let b1 := st1.buffer.set idx (acc1 % two32)
    { st1 with buffer := b1.set (idx + 1) fmtWord }

/-- Function __rte_msg2 from rtedbg.c (RTE_MINIMIZED_CODE_SIZE == 0). -/
def __rte_msg2 (cfg : RteConfig) (st : Rtedbg) (ts fmt_id d1 d2 : Nat) : Rtedbg :=
  if RTE_MESSAGE_DISABLED cfg st.filter fmt_id 2 then st else
  match RTE_RESERVE_SPACE cfg st 3 with
  | (st1, none) => st1
  | (st1, some idx) =>
    let acc0 := fmt_id * two32
    let acc1 := packStep acc0 d1
    let acc2 := packStep acc1 d2
    let timestamp := rteTimestamp cfg ts
    let fmtWord := timestamp ||| 1 ||| (((acc2 / two32) <<< (32 - cfg.fmtIdBits)) % two32)
    let b1 := st1.buffer.set idx (acc1 % two32)
    let b2 := b1.set (idx + 1) (acc2 % two32)
    { st1 with buffer := b2.set (idx + 2) fmtWord }

/-- Function __rte_msg3 from rtedbg.c (RTE_MINIMIZED_CODE_SIZE == 0). -/
def __rte_msg3 (cfg : RteConfig) (st : Rtedbg) (ts fmt_id d1 d2 d3 : Nat) : Rtedbg :=
  if RTE_MESSAGE_DISABLED cfg st.filter fmt_id 3 then st else
  match RTE_RESERVE_SPACE cfg st 4 with
  | (st1, none) => st1
  | (st1, some idx) =>
    let acc0 := fmt_id * two32
    let acc1 := packStep acc0 d1
    let acc2 := packStep acc1 d2
    let acc3 := packStep acc2 d3
    let timestamp := rteTimestamp cfg ts
    let fmtWord := timestamp ||| 1 ||| (((acc3 / two32) <<< (32 - cfg.fmtIdBits)) % two32)
    let b1 := st1.buffer.set idx (acc1 % two32)
    let b2 := b1.set (idx + 1) (acc2 % two32)
    let b3 := b2.set (idx + 2) (acc3 % two32)
    { st1 with buffer := b3.set (idx + 3) fmtWord }

/-- Function __rte_msg4 from rtedbg.c (RTE_MINIMIZED_CODE_SIZE == 0). -/
def __rte_msg4 (cfg : RteConfig) (st : Rtedbg) (ts fmt_id d1 d2 d3 d4 : Nat) : Rtedbg :=
  if RTE_MESSAGE_DISABLED cfg st.filter fmt_id 4 then st else
  match RTE_RESERVE_SPACE cfg st 5 with
  | (st1, none) => st1
  | (st1, some idx) =>
    let acc0 := fmt_id * two32
    let acc1 := packStep acc0 d1
    let acc2 := packStep acc1 d2
    let acc3 := packStep acc2 d3
    let acc4 := packStep acc3 d4
    let timestamp := rteTimestamp cfg ts
    let fmtWord := timestamp ||| 1 ||| (((acc4 / two32) <<< (32 - cfg.fmtIdBits)) % two32)
    let b1 := st1.buffer.set idx (acc1 % two32)
    let b2 := b1.set (idx + 1) (acc2 % two32)
    let b3 := b2.set (idx + 2) (acc3 % two32)
    let b4 := b3.set (idx + 3) (acc4 % two32)
    { st1 with buffer := b4.set (idx + 4) fmtWord }

/-- Sequence of buffer stores *data_packet = w; data_packet++ starting at
index idx. -/
def writeWords (buffer : List Nat) (idx : Nat) (ws : List Nat) : List Nat :=
  match ws with
  | [] => buffer
  | w :: rest => writeWords (buffer.set idx w) (idx + 1) rest

/-- Data-word stores of one __rte_msgn subpacket: for each source word the C
code performs  data.w32.data = *addr; addr++; data.w64 <<= 1;
*data_packet = data.w32.data; data_packet++.  Returns the list of stored
words together with the final accumulator value. -/
def packDataWords (acc : Nat) (ws : List Nat) : List Nat × Nat :=
  match ws with
  | [] => ([], acc)
  | d :: rest =>
    let acc1 := packStep acc d
    let r := packDataWords acc1 rest
    ((acc1 % two32) :: r.1, r.2)

/-- Subpacket loop of __rte_msgn (RTE_MINIMIZED_CODE_SIZE == 0).  Each pass
of the do-while loop writes min (no_words - 1) 4 DATA words (the switch
with fall-through) followed by the FMT word, advances the local index by 5
and applies RTE_LIMIT_INDEX, and continues while (int32_t)(no_words - 5) is
positive, i.e. while no_words > 5.  Besides the updated buffer the list of
word lists written by the individual passes is returned. -/
def msgnLoop (cfg : RteConfig) (tsWord : Nat) (src : List Nat)
    (buffer : List Nat) (idx no_words : Nat) : List Nat × List (List Nat) :=
  let dcount := min (no_words - 1) 4
  let dws := (List.range dcount).map (fun i => src.getD i 0)
  let packed := packDataWords 0 dws
  let fmtWord := tsWord ||| (((packed.2 / two32) <<< (32 - cfg.fmtIdBits)) % two32)
  let words := packed.1 ++ [fmtWord]
  let buffer2 := writeWords buffer idx words
  if h : no_words > 5 then
    let r := msgnLoop cfg tsWord (src.drop 4) buffer2
      (RTE_LIMIT_INDEX cfg (idx + 5)) (no_words - 5)
    (r.1, words :: r.2)
  else (buffer2, [words])
termination_by no_words
decreasing_by omega

/-- FMT word of __rte_msgn without the harvested bits: timestamp, the
format ID field masked into the top RTE_FMT_ID_BITS - 4 bits, and the
commit bit, exactly as in
timestamp |= ((fmt_id << (32 - (RTE_FMT_ID_BITS - 4))) & fmt_mask) | 1. -/
def msgnTsWord (cfg : RteConfig) (ts fmt_id : Nat) : Nat :=
  let timestamp := rteTimestamp cfg ts
  let fmt_mask := ((1 <<< (cfg.fmtIdBits - 4)) - 1) <<< (32 - (cfg.fmtIdBits - 4))
  timestamp ||| (((fmt_id <<< (32 - (cfg.fmtIdBits - 4))) % two32) &&& fmt_mask) ||| 1

/-- Number of words reserved by __rte_msgn for a (possibly already
truncated) length in bytes. -/
def msgnReservedWords (length : Nat) : Nat :=
  let n := (length + 3) / 4 + (length + 15) / 16
  if n = 0 then 1 else n

/-- Function __rte_msgn from rtedbg.c (RTE_MINIMIZED_CODE_SIZE == 0).  The
source data at the word-aligned address is given as the word list src. -/
def __rte_msgn (cfg : RteConfig) (st : Rtedbg) (ts fmt_id : Nat)
    (src : List Nat) (data_length : Nat) : Rtedbg :=
  if RTE_MESSAGE_DISABLED cfg st.filter fmt_id 4 then st else
  if data_length > RTE_MAX_MSG_SIZE cfg ∧ cfg.discardTooLongMessages = true then st else
  let length := if data_length > RTE_MAX_MSG_SIZE cfg then RTE_MAX_MSG_SIZE cfg
                else data_length
  let no_words := msgnReservedWords length
  match RTE_RESERVE_SPACE cfg st no_words with
  | (st1, none) => st1
  | (st1, some idx) =>
    let r := msgnLoop cfg (msgnTsWord cfg ts fmt_id) src st1.buffer idx no_words
    { st1 with buffer := r.1 }

/-- FMT word of __rte_msgx without the harvested bits:
timestamp |= (fmt_id << (32 - (RTE_FMT_ID_BITS - 4))) | 1. -/
def msgxTsWord (cfg : RteConfig) (ts fmt_id : Nat) : Nat :=
  rteTimestamp cfg ts ||| ((fmt_id <<< (32 - (cfg.fmtIdBits - 4))) % two32) ||| 1

/-- Little-endian byte gathering of the inner switch of __rte_msgx: the
number of bytes read depends on remaining_bytes (default = 4, cases 3, 2,
1, 0).  The byte memory is the list bytes, read from offset pos. -/
def msgxByteWord (bytes : List Nat) (pos remaining : Nat) : Nat :=
  if remaining ≥ 4 then
    bytes.getD pos 0 ||| (bytes.getD (pos + 1) 0 <<< 8) |||
      (bytes.getD (pos + 2) 0 <<< 16) ||| (bytes.getD (pos + 3) 0 <<< 24)
  else if remaining = 3 then
    bytes.getD pos 0 ||| (bytes.getD (pos + 1) 0 <<< 8) |||
      (bytes.getD (pos + 2) 0 <<< 16)
  else if remaining = 2 then
    bytes.getD pos 0 ||| (bytes.getD (pos + 1) 0 <<< 8)
  else if remaining = 1 then bytes.getD pos 0
  else 0

/-- Result of the inner do-while loop of __rte_msgx for one subpacket. -/
structure MsgxInner where
  stored : List Nat      -- DATA words stored by this pass
  acc : Nat              -- final 64-bit accumulator (harvested bits in high half)
  pos : Nat              -- advanced read position (addr)
  remaining : Nat        -- remaining_bytes if it stayed non-negative, else 0
  finished : Bool        -- remaining_bytes went negative (length word emitted)
  deriving Repr, DecidableEq

/-- Inner do-while loop of __rte_msgx.  The fuel argument is the loop
variable no_words, initially 4.  In the C code remaining_bytes is a signed
value; it goes negative exactly when it was less than 4 before the
subtraction, in which case the byte length is deposited in the top byte of
the last DATA word and the loop terminates. -/
def msgxInner (length : Nat) (bytes : List Nat) (pos remaining acc : Nat) :
    Nat → MsgxInner
  | 0 => ⟨[], acc, pos, remaining, false⟩
  | Nat.succ n =>
    let w0 := msgxByteWord bytes pos remaining
    if remaining < 4 then
      let w := w0 ||| (length <<< 24)
      let acc1 := packStep acc w
      ⟨[acc1 % two32], acc1, pos + 4, 0, true⟩
    else
      let acc1 := packStep acc w0
      let r := msgxInner length bytes (pos + 4) (remaining - 4) acc1 n
      ⟨(acc1 % two32) :: r.stored, r.acc, r.pos, r.remaining, r.finished⟩

/-- With the initial fuel 4, the inner loop finishes (emits the length
word) exactly when fewer than 16 bytes remain; otherwise it consumes 16
bytes and advances the read position by 16. -/
theorem msgxInner_run4 (length : Nat) (bytes : List Nat) (pos remaining acc : Nat) :
    (remaining < 16 → (msgxInner length bytes pos remaining acc 4).finished = true) ∧
    (16 ≤ remaining →
      (msgxInner length bytes pos remaining acc 4).finished = false ∧
      (msgxInner length bytes pos remaining acc 4).remaining = remaining - 16 ∧
      (msgxInner length bytes pos remaining acc 4).pos = pos + 16) := by
  by_cases h1 : remaining < 4
  · constructor
    · intro _; simp [msgxInner, h1]
    · intro h; omega
  · by_cases h2 : remaining - 4 < 4
    · constructor
      · intro _
        simp only [msgxInner]
        rw [if_neg h1]
        simp [msgxInner, h2]
      · intro h; omega
    · by_cases h3 : remaining - 4 - 4 < 4
      · constructor
        · intro _
          simp only [msgxInner]
          rw [if_neg h1]
          simp only [msgxInner]
          rw [if_neg (by omega : ¬ remaining - 4 < 4)]
          simp [msgxInner, h3]
        · intro h; omega
      · by_cases h4 : remaining - 4 - 4 - 4 < 4
        · constructor
          · intro _
            simp only [msgxInner]
            rw [if_neg h1]
            simp only [msgxInner]
            rw [if_neg (by omega : ¬ remaining - 4 < 4)]
            simp only [msgxInner]
            rw [if_neg (by omega : ¬ remaining - 4 - 4 < 4)]
            simp [msgxInner, h4]
          · intro h; omega
        · constructor
          · intro h; omega
          · intro _
            simp only [msgxInner]
            rw [if_neg h1]
            simp only [msgxInner]
            rw [if_neg (by omega : ¬ remaining - 4 < 4)]
            simp only [msgxInner]
            rw [if_neg (by omega : ¬ remaining - 4 - 4 < 4)]
            simp only [msgxInner]
            rw [if_neg h4]
            simp [msgxInner]
            omega

/-- Outer do-while loop of __rte_msgx: one subpacket per pass (inner loop,
FMT word, buf_index += 5 with RTE_LIMIT_INDEX), repeated while
remaining_bytes is still non-negative, i.e. while the inner loop has not
emitted the length word.  Returns the updated buffer and the written
subpackets. -/
def msgxOuter (cfg : RteConfig) (tsWord length : Nat) (bytes : List Nat)
    (buffer : List Nat) (idx pos remaining : Nat) : List Nat × List (List Nat) :=
  let r := msgxInner length bytes pos remaining 0 4
  let fmtWord := tsWord ||| (((r.acc / two32) <<< (32 - cfg.fmtIdBits)) % two32)
  let words := r.stored ++ [fmtWord]
  let buffer2 := writeWords buffer idx words
  if h : r.finished = true then (buffer2, [words])
  else
    let r2 := msgxOuter cfg tsWord length bytes buffer2
      (RTE_LIMIT_INDEX cfg (idx + 5)) r.pos r.remaining
    (r2.1, words :: r2.2)
termination_by remaining
decreasing_by
  have h16 : 16 ≤ remaining := by
    by_contra hc
    exact h ((msgxInner_run4 length bytes pos remaining 0).1 (by omega))
  have := ((msgxInner_run4 length bytes pos remaining 0).2 h16).2.1
  omega

/-- Function __rte_msgx from rtedbg.c.  The byte-granular source data is
the list bytes (each entry one uint8_t). -/
def __rte_msgx (cfg : RteConfig) (st : Rtedbg) (ts fmt_id : Nat)
    (bytes : List Nat) (data_length : Nat) : Rtedbg :=
  if RTE_MESSAGE_DISABLED cfg st.filter fmt_id 4 then st else
  if data_length > RTE_MAX_MSGX_SIZE cfg - 1 ∧ cfg.discardTooLongMessages = true then st else
  let length := if data_length > RTE_MAX_MSGX_SIZE cfg - 1 then RTE_MAX_MSGX_SIZE cfg - 1
                else data_length
  let no_words := 2 + length / 4 + length / 16
  match RTE_RESERVE_SPACE cfg st no_words with
  | (st1, none) => st1
  | (st1, some idx) =>
    let r := msgxOuter cfg (msgxTsWord cfg ts fmt_id) length bytes st1.buffer idx 0 length
    { st1 with buffer := r.1 }

/-- Function rte_set_filter from rtedbg.c (RTE_FIRMWARE_MAY_SET_FILTER). -/
def rte_set_filter (cfg : RteConfig) (st : Rtedbg) (filter : Nat) : Rtedbg :=
  let nv0 := filter
  let new_value :=
    if cfg.filterOffEnabled = true ∧ st.filter = 0 ∧ nv0 ≠ RTE_FORCE_ENABLE_ALL_FILTERS
    then 0 else nv0
  if new_value ≠ 0 then
    { st with filter := new_value ||| 0x80000000,
              filter_copy := new_value ||| 0x80000000 }
  else
    { st with filter := new_value }

/-- Function rte_restore_filter from rtedbg.c. -/
def rte_restore_filter (st : Rtedbg) : Rtedbg :=
  { st with filter := st.filter_copy }

/-- Function rte_init from rtedbg.c.  The timestamp-timer initialization has
no effect on the g_rtedbg structure and is omitted; the timestamp frequency
returned by RTE_GET_TSTAMP_FREQUENCY() is the argument ts_frequency. -/
def rte_init (cfg : RteConfig) (st : Rtedbg)
    (initial_filter_value init_mode ts_frequency : Nat) : Rtedbg :=
  let config_id0 := RTE_CONFIG_ID cfg
  let ssActive := cfg.singleShotEnabled = true ∧ init_mode &&& 1 ≠ 0
  let config_id := if ssActive then config_id0 ||| 1 else config_id0
  let st1 := if ssActive then { st with buf_index := 0 } else st
  let st2 :=
    if st1.rte_cfg ≠ config_id ∨ init_mode ≥ 2 then
      let stA := { st1 with filter := 0 }
      let stB := { stA with buffer := List.replicate (cfg.bufferSize + 4) RTE_ERASED_STATE }
      let stC :=
        if cfg.filterOffEnabled = true ∧ cfg.msgFilteringEnabled = true then
          if cfg.firmwareMaySetFilter = true then
            { stB with filter := initial_filter_value, filter_copy := initial_filter_value }
          else { stB with filter := initial_filter_value }
        else stB
      { stC with buf_index := 0 }
    else st1
  let st3 := { st2 with rte_cfg := config_id, buffer_size := cfg.bufferSize + 4,
                        timestamp_frequency := ts_frequency }
  if cfg.filterOffEnabled = true then rte_set_filter cfg st3 initial_filter_value
  else if cfg.msgFilteringEnabled = true then { st3 with filter := initial_filter_value }
  else st3

/-- Configuration of the template rtedbg_config.h: RTE_FMT_ID_BITS 10,
RTE_BUFFER_SIZE 2048, RTE_MAX_SUBPACKETS 16, post-mortem only. -/
def stdCfg : RteConfig :=
  { fmtIdBits := 10, bufferSize := 2048, maxSubpackets := 16, timestampShift := 1,
    msgFilteringEnabled := true, filterOffEnabled := true, firmwareMaySetFilter := true,
    singleShotEnabled := false, stopAtFirstTooLargeMsg := false,
    discardTooLongMessages := true, useLongTimestamp := true }

/-- Small legal configuration (capacity 64 is a power of two and at least
RTE_MAX_SUBPACKETS * 5 * 4 = 60 words). -/
def smallCfg : RteConfig :=
  { fmtIdBits := 10, bufferSize := 64, maxSubpackets := 3, timestampShift := 1,
    msgFilteringEnabled := true, filterOffEnabled := true, firmwareMaySetFilter := true,
    singleShotEnabled := false, stopAtFirstTooLargeMsg := false,
    discardTooLongMessages := true, useLongTimestamp := false }

/-- Same as smallCfg with single-shot compiled in and
RTE_STOP_SINGLE_SHOT_AT_FIRST_TOO_LARGE_MSG not defined (the default). -/
def ssCfg : RteConfig :=
  { smallCfg with singleShotEnabled := true }

/-- Same as ssCfg with RTE_STOP_SINGLE_SHOT_AT_FIRST_TOO_LARGE_MSG defined. -/
def ssStopCfg : RteConfig :=
  { ssCfg with stopAtFirstTooLargeMsg := true }

/-- An uninitialized g_rtedbg instance (contents before rte_init). -/
def blankState : Rtedbg :=
  { buf_index := 0, filter := 0, rte_cfg := 0, timestamp_frequency := 0,
    filter_copy := 0, buffer_size := 0, buffer := [] }

/-- State after rte_init(0xFFFFFFFF, RTE_RESTART_LOGGING) under smallCfg. -/
def initState64 : Rtedbg := rte_init smallCfg blankState 0xFFFFFFFF 2 1000

/-- Scenario of spec section 8 item 3: sixty one-word messages followed by
one five-word message whose subpacket straddles the wrap point. -/
def straddleState : Rtedbg :=
  let st60 := (List.range 60).foldl
    (fun s _ => __rte_msg0 smallCfg s 0 (RTE_PACK smallCfg 5 0x100 0)) initState64
  __rte_msg4 smallCfg st60 0 (RTE_PACK smallCfg 5 0x110 4) 1 2 3 4

/-! Helper lemmas about the embedding. -/

theorem lor_mod_two_pow (a b k : Nat) : (a ||| b) % 2 ^ k = a % 2 ^ k ||| b % 2 ^ k := by
  apply Nat.eq_of_testBit_eq
  intro i
  simp only [Nat.testBit_mod_two_pow, Nat.testBit_lor]
  by_cases h : i < k <;> simp [h]

theorem and_mask_eq_mod (x m n : Nat) (hm : m = 2 ^ n - 1) : x &&& m = x % 2 ^ n := by
  rw [hm]; exact Nat.and_pow_two_sub_one_eq_mod x n

theorem testBit_eq_false_of_lt_le {x i j : Nat} (hx : x < 2 ^ i) (hij : i ≤ j) :
    x.testBit j = false :=
  Nat.testBit_eq_false_of_lt (lt_of_lt_of_le hx (Nat.pow_le_pow_right (by omega) hij))

theorem RTE_LIMIT_INDEX_lt (cfg : RteConfig) (idx : Nat) (hcap : 0 < cfg.bufferSize) :
    RTE_LIMIT_INDEX cfg idx < cfg.bufferSize := by
  unfold RTE_LIMIT_INDEX
  split
  · exact lt_of_le_of_lt Nat.and_le_right (by omega)
  · split <;> omega

theorem RTE_IS_POWER_OF_2_spec (n : Nat) (h : RTE_IS_POWER_OF_2 n = true) :
    ∃ k, 2 ≤ k ∧ k ≤ 31 ∧ n = 2 ^ k := by
  simp only [RTE_IS_POWER_OF_2, List.any_eq_true, List.mem_range, beq_iff_eq] at h
  obtain ⟨x, hx, hn⟩ := h
  exact ⟨x + 2, by omega, by omega, hn⟩

/-- In the post-mortem path (single-shot flag clear, or single-shot not
compiled in) the reservation always succeeds and only advances buf_index. -/
theorem RTE_RESERVE_SPACE_success (cfg : RteConfig) (st : Rtedbg) (size : Nat)
    (h : cfg.singleShotEnabled = false ∨ st.rte_cfg &&& 1 = 0) :
    RTE_RESERVE_SPACE cfg st size =
      ({ st with buf_index := (RTE_LIMIT_INDEX cfg st.buf_index + size) % two32 },
       some (RTE_LIMIT_INDEX cfg st.buf_index)) := by
  unfold RTE_RESERVE_SPACE
  rw [if_neg]
  rintro ⟨h1, h2, _⟩
  rcases h with hss | hbit
  · rw [hss] at h1; exact Bool.false_ne_true h1
  · exact h2 hbit

/-- C3: rte_set_filter obeys the lockout discipline: with the filter at 0,
any value other than FORCE_ENABLE_ALL is silenced to 0 (filter_copy kept);
whenever the admitted value is non-zero, the stored filter is the argument
with bit 31 forced on and filter_copy mirrors that stored value. -/
theorem rte_set_filter_lockout_discipline (cfg : RteConfig) (st : Rtedbg) (v : Nat)
    (hoff : cfg.filterOffEnabled = true) :
    ((st.filter = 0 ∧ v ≠ RTE_FORCE_ENABLE_ALL_FILTERS) →
      (rte_set_filter cfg st v).filter = 0 ∧
      (rte_set_filter cfg st v).filter_copy = st.filter_copy) ∧
    ((v ≠ 0 ∧ (st.filter ≠ 0 ∨ v = RTE_FORCE_ENABLE_ALL_FILTERS)) →
      (rte_set_filter cfg st v).filter = v ||| 0x80000000 ∧
      (rte_set_filter cfg st v).filter_copy = v ||| 0x80000000) := by
  simp only [rte_set_filter]
  constructor
  · rintro ⟨h0, hv⟩
    have hin : (if cfg.filterOffEnabled = true ∧ st.filter = 0 ∧
        v ≠ RTE_FORCE_ENABLE_ALL_FILTERS then 0 else v) = 0 := if_pos ⟨hoff, h0, hv⟩
    rw [hin]
    simp
  · rintro ⟨hv0, hcase⟩
    have hcond : ¬ (cfg.filterOffEnabled = true ∧ st.filter = 0 ∧
        v ≠ RTE_FORCE_ENABLE_ALL_FILTERS) := by
      rintro ⟨_, h0, hv⟩
      rcases hcase with h | h
      · exact h h0
      · exact hv h
    rw [if_neg hcond, if_pos hv0]
    exact ⟨rfl, rfl⟩

/-- Witness for the C3 theorem at concrete inputs (filter locked at 0 and a
non-sentinel argument; then the sentinel from a live filter). -/
theorem rte_set_filter_lockout_discipline_witness :
    ((rte_set_filter stdCfg { blankState with filter := 0 } 0xFFFF).filter = 0 ∧
     (rte_set_filter stdCfg { blankState with filter := 0 } 0xFFFF).filter_copy = 0) ∧
    ((rte_set_filter stdCfg { blankState with filter := 3 } 0xFFFF).filter = 0x8000FFFF ∧
     (rte_set_filter stdCfg { blankState with filter := 3 } 0xFFFF).filter_copy = 0x8000FFFF) := by
  constructor
  · exact (rte_set_filter_lockout_discipline stdCfg { blankState with filter := 0 }
      0xFFFF (by decide)).1 ⟨rfl, by decide⟩
  · have h := (rte_set_filter_lockout_discipline stdCfg { blankState with filter := 3 }
      0xFFFF (by decide)).2 ⟨by decide, Or.inl (by decide)⟩
    exact ⟨h.1.trans (by decide), h.2.trans (by decide)⟩

theorem and_31_eq (f : Nat) (hf : f < 32) : f &&& 31 = f := by
  rw [and_mask_eq_mod f 31 5 rfl]
  exact Nat.mod_eq_of_lt hf

/-- The filter number travels intact through RTE_PACK: shifting the packed
key right by RTE_FMT_ID_BITS - shift_bits (as the filter gate does)
recovers the filter number. -/
theorem RTE_PACK_filter_number (f fmt sb : Nat) (hf : f < 32) (hsb : sb ≤ 4) :
    RTE_PACK stdCfg f fmt sb >>> (stdCfg.fmtIdBits - sb) = f := by
  show ((((f &&& 31) <<< 10) ||| (fmt &&& 1023)) >>> sb) >>> (10 - sb) = f
  rw [← Nat.shiftRight_add, (by omega : sb + (10 - sb) = 10)]
  apply Nat.eq_of_testBit_eq
  intro i
  rw [Nat.testBit_shiftRight, Nat.testBit_lor]
  have hlow : (fmt &&& 1023).testBit (10 + i) = false := by
    apply testBit_eq_false_of_lt_le (i := 10)
    · exact lt_of_le_of_lt Nat.and_le_right (by norm_num)
    · omega
  rw [hlow, Nat.testBit_shiftLeft, and_31_eq f hf]
  simp [(by omega : 10 + i ≥ 10), Nat.add_sub_cancel_left]

theorem sign_bit_iff (y : Nat) (hy : y < two32) : two31 ≤ y ↔ y.testBit 31 = true := by
  rw [Nat.testBit_to_div_mod]
  simp only [decide_eq_true_eq]
  unfold two31 two32 at *
  omega

/-- C6: a message with packed filter number f in 0..31 is admitted exactly
when filter_mask << f has its sign bit set, i.e. exactly when bit 31 - f of
filter_mask is 1; and with filter_mask = 0 at the start of the call, every
logging function returns without modifying the state at all. -/
theorem msg_filter_gate_and_zero_noop
    (filter f fmt sb ts k0 k1 k2 k3 k4 kn kx L : Nat) (st : Rtedbg)
    (src bytes : List Nat) (d1 d2 d3 d4 : Nat)
    (hf : f < 32) (hsb : sb ≤ 4) :
    (RTE_MESSAGE_DISABLED stdCfg filter (RTE_PACK stdCfg f fmt sb) sb = false ↔
      two31 ≤ (filter <<< f) % two32) ∧
    (two31 ≤ (filter <<< f) % two32 ↔ filter.testBit (31 - f) = true) ∧
    (st.filter = 0 →
      __rte_msg0 stdCfg st ts k0 = st ∧
      __rte_msg1 stdCfg st ts k1 d1 = st ∧
      __rte_msg2 stdCfg st ts k2 d1 d2 = st ∧
      __rte_msg3 stdCfg st ts k3 d1 d2 d3 = st ∧
      __rte_msg4 stdCfg st ts k4 d1 d2 d3 d4 = st ∧
      __rte_msgn stdCfg st ts kn src L = st ∧
      __rte_msgx stdCfg st ts kx bytes L = st) := by
  refine ⟨?_, ?_, ?_⟩
  · unfold RTE_MESSAGE_DISABLED
    rw [RTE_PACK_filter_number f fmt sb hf hsb]
    simp only [stdCfg, if_true]
    simp [not_lt]
  · have h31 : ((filter <<< f) % two32).testBit 31 = filter.testBit (31 - f) := by
      show ((filter <<< f) % 2 ^ 32).testBit 31 = filter.testBit (31 - f)
      rw [Nat.testBit_mod_two_pow, Nat.testBit_shiftLeft]
      simp [(by omega : (31 : Nat) < 32), (by omega : 31 ≥ f)]
    rw [← h31]
    exact sign_bit_iff _ (Nat.mod_lt _ (by norm_num [two32]))
  · intro h0
    have hgate : ∀ key sb2, RTE_MESSAGE_DISABLED stdCfg 0 key sb2 = true := by
      intro key sb2
      simp [RTE_MESSAGE_DISABLED, stdCfg, Nat.zero_shiftLeft, two31, two32]
    refine ⟨?_, ?_, ?_, ?_, ?_, ?_, ?_⟩
    · unfold __rte_msg0; rw [h0, hgate, if_pos rfl]
    · unfold __rte_msg1; rw [h0, hgate, if_pos rfl]
    · unfold __rte_msg2; rw [h0, hgate, if_pos rfl]
    · unfold __rte_msg3; rw [h0, hgate, if_pos rfl]
    · unfold __rte_msg4; rw [h0, hgate, if_pos rfl]
    · unfold __rte_msgn; rw [h0, hgate, if_pos rfl]
    · unfold __rte_msgx; rw [h0, hgate, if_pos rfl]

/-- Witness for the C6 theorem: filter number 5, a filter mask with exactly
bit 26 set (message admitted), and the no-op part on a zero-filter state. -/
theorem msg_filter_gate_and_zero_noop_witness :
    (RTE_MESSAGE_DISABLED stdCfg 0x04000000 (RTE_PACK stdCfg 5 0x100 0) 0 = false ↔
      two31 ≤ ((0x04000000 : Nat) <<< 5) % two32) ∧
    (two31 ≤ ((0x04000000 : Nat) <<< 5) % two32 ↔
      (0x04000000 : Nat).testBit (31 - 5) = true) ∧
    (__rte_msg0 stdCfg { blankState with filter := 0 } 7 9 =
      { blankState with filter := 0 }) := by
  have h := msg_filter_gate_and_zero_noop 0x04000000 5 0x100 0 7 9 9 9 9 9 9 9 0
    { blankState with filter := 0 } [] [] 0 0 0 0 (by omega) (by omega)
  exact ⟨h.1, h.2.1, (h.2.2 rfl).1⟩

/-- All header fields other than buf_index agree between two states. -/
def headerEq (a b : Rtedbg) : Prop :=
  a.filter = b.filter ∧ a.filter_copy = b.filter_copy ∧ a.rte_cfg = b.rte_cfg ∧
  a.timestamp_frequency = b.timestamp_frequency ∧ a.buffer_size = b.buffer_size

/-- C10: in post-mortem mode (single-shot flag clear in rte_cfg), every
logging call changes only buf_index and buffer words: the header fields
filter, filter_copy, rte_cfg, timestamp_frequency and buffer_size are left
unchanged by each of the seven logging functions. -/
theorem logging_postmortem_frame (cfg : RteConfig) (st : Rtedbg)
    (ts k0 k1 k2 k3 k4 kn kx L Lx : Nat) (src bytes : List Nat) (d1 d2 d3 d4 : Nat)
    (hpm : st.rte_cfg &&& 1 = 0) :
    headerEq (__rte_msg0 cfg st ts k0) st ∧
    headerEq (__rte_msg1 cfg st ts k1 d1) st ∧
    headerEq (__rte_msg2 cfg st ts k2 d1 d2) st ∧
    headerEq (__rte_msg3 cfg st ts k3 d1 d2 d3) st ∧
    headerEq (__rte_msg4 cfg st ts k4 d1 d2 d3 d4) st ∧
    headerEq (__rte_msgn cfg st ts kn src L) st ∧
    headerEq (__rte_msgx cfg st ts kx bytes Lx) st := by
  have hres : ∀ size, RTE_RESERVE_SPACE cfg st size =
      ({ st with buf_index := (RTE_LIMIT_INDEX cfg st.buf_index + size) % two32 },
       some (RTE_LIMIT_INDEX cfg st.buf_index)) :=
    fun size => RTE_RESERVE_SPACE_success cfg st size (Or.inr hpm)
  refine ⟨?_, ?_, ?_, ?_, ?_, ?_, ?_⟩
  · by_cases hg : RTE_MESSAGE_DISABLED cfg st.filter k0 0 = true <;>
      simp [__rte_msg0, hg, hres, headerEq]
  · by_cases hg : RTE_MESSAGE_DISABLED cfg st.filter k1 1 = true <;>
      simp [__rte_msg1, hg, hres, headerEq]
  · by_cases hg : RTE_MESSAGE_DISABLED cfg st.filter k2 2 = true <;>
      simp [__rte_msg2, hg, hres, headerEq]
  · by_cases hg : RTE_MESSAGE_DISABLED cfg st.filter k3 3 = true <;>
      simp [__rte_msg3, hg, hres, headerEq]
  · by_cases hg : RTE_MESSAGE_DISABLED cfg st.filter k4 4 = true <;>
      simp [__rte_msg4, hg, hres, headerEq]
  · by_cases hg : RTE_MESSAGE_DISABLED cfg st.filter kn 4 = true
    · simp [__rte_msgn, hg, headerEq]
    · by_cases hd : L > RTE_MAX_MSG_SIZE cfg ∧ cfg.discardTooLongMessages = true <;>
        simp [__rte_msgn, hg, hd, hres, headerEq]
  · by_cases hg : RTE_MESSAGE_DISABLED cfg st.filter kx 4 = true
    · simp [__rte_msgx, hg, headerEq]
    · by_cases hd : Lx > RTE_MAX_MSGX_SIZE cfg - 1 ∧ cfg.discardTooLongMessages = true <;>
        simp [__rte_msgx, hg, hd, hres, headerEq]

/-- Witness for the C10 theorem: the initialized smallCfg state is in
post-mortem mode and a concrete msg2 call leaves the header fields alone. -/
theorem logging_postmortem_frame_witness :
    headerEq (__rte_msg2 smallCfg initState64 0 (RTE_PACK smallCfg 0 0x40 2)
      0x80000001 0x00000002) initState64 :=
  (logging_postmortem_frame smallCfg initState64 0 0 0 (RTE_PACK smallCfg 0 0x40 2)
    0 0 0 0 0 0 [] [] 0x80000001 0x00000002 0 0 (by decide)).2.2.1

/-- C2 (amended): reservation returns the pre-advance index wrapped by
RTE_LIMIT_INDEX before k is added.  For a non-power-of-two capacity a
pre-advance at or past the capacity wraps to 0; for a power-of-two capacity
the pre-advance is reduced modulo the capacity (AND with capacity - 1),
which after a straddling subpacket is generally not 0. -/
theorem reserve_space_wrap (cfg : RteConfig) (st : Rtedbg) (k : Nat)
    (hsucc : cfg.singleShotEnabled = false ∨ st.rte_cfg &&& 1 = 0) :
    RTE_RESERVE_SPACE cfg st k =
      ({ st with buf_index := (RTE_LIMIT_INDEX cfg st.buf_index + k) % two32 },
       some (RTE_LIMIT_INDEX cfg st.buf_index)) ∧
    (RTE_IS_POWER_OF_2 cfg.bufferSize = true →
      RTE_LIMIT_INDEX cfg st.buf_index = st.buf_index % cfg.bufferSize) ∧
    (RTE_IS_POWER_OF_2 cfg.bufferSize = false →
      RTE_LIMIT_INDEX cfg st.buf_index =
        if st.buf_index ≥ cfg.bufferSize then 0 else st.buf_index) := by
  refine ⟨RTE_RESERVE_SPACE_success cfg st k hsucc, ?_, ?_⟩
  · intro hp2
    obtain ⟨n, -, -, hn⟩ := RTE_IS_POWER_OF_2_spec _ hp2
    unfold RTE_LIMIT_INDEX
    rw [if_pos hp2, hn, and_mask_eq_mod _ _ n rfl]
  · intro hnp2
    unfold RTE_LIMIT_INDEX
    rw [if_neg (by simp [hnp2])]

set_option maxRecDepth 40000 in
/-- Counterexample for C2 as stated: after the straddling subpacket of the
spec scenario (capacity 64, sixty one-word messages, then a five-word
message) the stored write index is 65; the claim predicts that the next
reservation starts at buffer index 0, but the power-of-two wrap returns
65 AND 63 = 1. -/
theorem reserve_space_wrap_counterexample :
    straddleState.buf_index = 65 ∧ smallCfg.bufferSize = 64 ∧
    (RTE_RESERVE_SPACE smallCfg straddleState 1).2 = some 1 ∧
    ¬ (RTE_RESERVE_SPACE smallCfg straddleState 1).2 = some 0 := by decide

/-- Witness for the C2 amended theorem: a non-power-of-two capacity (65)
with pre-advance 70 wraps to 0, and the power-of-two capacity 64 with
pre-advance 65 wraps to 1. -/
theorem reserve_space_wrap_witness :
    (RTE_RESERVE_SPACE { smallCfg with bufferSize := 65 }
      { blankState with buf_index := 70 } 5).2 = some 0 ∧
    (RTE_RESERVE_SPACE smallCfg { blankState with buf_index := 65 } 5).2 = some 1 := by
  have h1 := (reserve_space_wrap { smallCfg with bufferSize := 65 }
    { blankState with buf_index := 70 } 5 (Or.inl rfl)).1
  have h2 := (reserve_space_wrap smallCfg { blankState with buf_index := 65 } 5
    (Or.inl rfl)).1
  rw [h1, h2]
  exact ⟨by decide, by decide⟩

/-- Refusal case of the single-shot reservation: single-shot compiled in and
active, and the proposed post-advance index reaches or passes the capacity. -/
theorem RTE_RESERVE_SPACE_refuse (cfg : RteConfig) (st : Rtedbg) (size : Nat)
    (hss : cfg.singleShotEnabled = true) (hact : st.rte_cfg &&& 1 ≠ 0)
    (hfull : (st.buf_index + size) % two32 ≥ cfg.bufferSize) :
    RTE_RESERVE_SPACE cfg st size =
      ((if cfg.stopAtFirstTooLargeMsg = true then { st with filter := 0 } else st),
       none) := by
  unfold RTE_RESERVE_SPACE
  rw [if_pos ⟨hss, hact, hfull⟩]

/-- Outcome of a refused (or gate-filtered) logging call: no buffer word is
written, the write index is not advanced, and the filter is cleared exactly
when the gate had passed and RTE_STOP_SINGLE_SHOT_AT_FIRST_TOO_LARGE_MSG is
configured. -/
def refusedOutcome (cfg : RteConfig) (st a : Rtedbg) (disabled : Bool) : Prop :=
  a.buffer = st.buffer ∧ a.buf_index = st.buf_index ∧
  a.filter = (if disabled = false ∧ cfg.stopAtFirstTooLargeMsg = true then 0
              else st.filter) ∧
  a.filter_copy = st.filter_copy

/-- C5 (amended): in active single-shot mode, a message call whose proposed
post-advance index reaches or exceeds the capacity is dropped: nothing is
written to buffer or write index; filter_mask is set to 0 only when
RTE_STOP_SINGLE_SHOT_AT_FIRST_TOO_LARGE_MSG is configured, and is left
unchanged otherwise. -/
theorem single_shot_refusal (cfg : RteConfig) (st : Rtedbg)
    (ts k0 k1 k2 k3 k4 kn kx L Lx : Nat) (src bytes : List Nat) (d1 d2 d3 d4 : Nat)
    (hss : cfg.singleShotEnabled = true) (hact : st.rte_cfg &&& 1 ≠ 0) :
    ((st.buf_index + 1) % two32 ≥ cfg.bufferSize →
      refusedOutcome cfg st (__rte_msg0 cfg st ts k0)
        (RTE_MESSAGE_DISABLED cfg st.filter k0 0)) ∧
    ((st.buf_index + 2) % two32 ≥ cfg.bufferSize →
      refusedOutcome cfg st (__rte_msg1 cfg st ts k1 d1)
        (RTE_MESSAGE_DISABLED cfg st.filter k1 1)) ∧
    ((st.buf_index + 3) % two32 ≥ cfg.bufferSize →
      refusedOutcome cfg st (__rte_msg2 cfg st ts k2 d1 d2)
        (RTE_MESSAGE_DISABLED cfg st.filter k2 2)) ∧
    ((st.buf_index + 4) % two32 ≥ cfg.bufferSize →
      refusedOutcome cfg st (__rte_msg3 cfg st ts k3 d1 d2 d3)
        (RTE_MESSAGE_DISABLED cfg st.filter k3 3)) ∧
    ((st.buf_index + 5) % two32 ≥ cfg.bufferSize →
      refusedOutcome cfg st (__rte_msg4 cfg st ts k4 d1 d2 d3 d4)
        (RTE_MESSAGE_DISABLED cfg st.filter k4 4)) ∧
    (¬ (L > RTE_MAX_MSG_SIZE cfg ∧ cfg.discardTooLongMessages = true) →
      (st.buf_index + msgnReservedWords
        (if L > RTE_MAX_MSG_SIZE cfg then RTE_MAX_MSG_SIZE cfg else L)) % two32 ≥
          cfg.bufferSize →
      refusedOutcome cfg st (__rte_msgn cfg st ts kn src L)
        (RTE_MESSAGE_DISABLED cfg st.filter kn 4)) ∧
    (¬ (Lx > RTE_MAX_MSGX_SIZE cfg - 1 ∧ cfg.discardTooLongMessages = true) →
      (st.buf_index + (2 +
        (if Lx > RTE_MAX_MSGX_SIZE cfg - 1 then RTE_MAX_MSGX_SIZE cfg - 1 else Lx) / 4 +
        (if Lx > RTE_MAX_MSGX_SIZE cfg - 1 then RTE_MAX_MSGX_SIZE cfg - 1 else Lx) / 16))
          % two32 ≥ cfg.bufferSize →
      refusedOutcome cfg st (__rte_msgx cfg st ts kx bytes Lx)
        (RTE_MESSAGE_DISABLED cfg st.filter kx 4)) := by
  have houtcome : ∀ (b : Bool), b = false ∨ b = true := fun b => by
    cases b <;> simp
  refine ⟨?_, ?_, ?_, ?_, ?_, ?_, ?_⟩
  · intro hfull
    by_cases hg : RTE_MESSAGE_DISABLED cfg st.filter k0 0 = true
    · simp [__rte_msg0, hg, refusedOutcome]
    · rw [eq_false_of_ne_true hg]
      by_cases hstop : cfg.stopAtFirstTooLargeMsg = true <;>
        simp [__rte_msg0, hg, RTE_RESERVE_SPACE_refuse cfg st 1 hss hact hfull,
          refusedOutcome, hstop]
  · intro hfull
    by_cases hg : RTE_MESSAGE_DISABLED cfg st.filter k1 1 = true
    · simp [__rte_msg1, hg, refusedOutcome]
    · rw [eq_false_of_ne_true hg]
      by_cases hstop : cfg.stopAtFirstTooLargeMsg = true <;>
        simp [__rte_msg1, hg, RTE_RESERVE_SPACE_refuse cfg st 2 hss hact hfull,
          refusedOutcome, hstop]
  · intro hfull
    by_cases hg : RTE_MESSAGE_DISABLED cfg st.filter k2 2 = true
    · simp [__rte_msg2, hg, refusedOutcome]
    · rw [eq_false_of_ne_true hg]
      by_cases hstop : cfg.stopAtFirstTooLargeMsg = true <;>
        simp [__rte_msg2, hg, RTE_RESERVE_SPACE_refuse cfg st 3 hss hact hfull,
          refusedOutcome, hstop]
  · intro hfull
    by_cases hg : RTE_MESSAGE_DISABLED cfg st.filter k3 3 = true
    · simp [__rte_msg3, hg, refusedOutcome]
    · rw [eq_false_of_ne_true hg]
      by_cases hstop : cfg.stopAtFirstTooLargeMsg = true <;>
        simp [__rte_msg3, hg, RTE_RESERVE_SPACE_refuse cfg st 4 hss hact hfull,
          refusedOutcome, hstop]
  · intro hfull
    by_cases hg : RTE_MESSAGE_DISABLED cfg st.filter k4 4 = true
    · simp [__rte_msg4, hg, refusedOutcome]
    · rw [eq_false_of_ne_true hg]
      by_cases hstop : cfg.stopAtFirstTooLargeMsg = true <;>
        simp [__rte_msg4, hg, RTE_RESERVE_SPACE_refuse cfg st 5 hss hact hfull,
          refusedOutcome, hstop]
  · intro hnd hfull
    by_cases hg : RTE_MESSAGE_DISABLED cfg st.filter kn 4 = true
    · simp [__rte_msgn, hg, refusedOutcome]
    · rw [eq_false_of_ne_true hg]
      by_cases hstop : cfg.stopAtFirstTooLargeMsg = true <;>
        simp [__rte_msgn, hg, hnd, RTE_RESERVE_SPACE_refuse cfg st _ hss hact hfull,
          refusedOutcome, hstop]
  · intro hnd hfull
    by_cases hg : RTE_MESSAGE_DISABLED cfg st.filter kx 4 = true
    · simp [__rte_msgx, hg, refusedOutcome]
    · rw [eq_false_of_ne_true hg]
      by_cases hstop : cfg.stopAtFirstTooLargeMsg = true <;>
        simp [__rte_msgx, hg, hnd, RTE_RESERVE_SPACE_refuse cfg st _ hss hact hfull,
          refusedOutcome, hstop]

/-- Single-shot state at index 62 of the 64-word buffer, all filters on. -/
def ssState : Rtedbg :=
  { buf_index := 62, filter := 0xFFFFFFFF, rte_cfg := 1, timestamp_frequency := 0,
    filter_copy := 0xFFFFFFFF, buffer_size := 68,
    buffer := List.replicate 68 RTE_ERASED_STATE }

/-- Counterexample to C5 as stated: in the default single-shot build (the
stop-at-first-too-large-message macro not defined), a five-word message at
index 62 of the 64-word buffer is refused and dropped, but the filter is
NOT set to 0 - it keeps its old value 0xFFFFFFFF, so later smaller messages
would still be logged. -/
theorem single_shot_refusal_counterexample :
    ssCfg.stopAtFirstTooLargeMsg = false ∧
    ssCfg.bufferSize = 64 ∧ ssState.buf_index + 5 = 67 ∧
    (__rte_msg4 ssCfg ssState 0 (RTE_PACK ssCfg 5 0x110 4) 1 2 3 4).buffer =
      ssState.buffer ∧
    (__rte_msg4 ssCfg ssState 0 (RTE_PACK ssCfg 5 0x110 4) 1 2 3 4).buf_index = 62 ∧
    ¬ (__rte_msg4 ssCfg ssState 0 (RTE_PACK ssCfg 5 0x110 4) 1 2 3 4).filter = 0 := by
  decide

/-- Witness for the C5 amended theorem: with the stop macro configured the
same refused call clears the filter; the refused outcome is reached at the
concrete state ssState. -/
theorem single_shot_refusal_witness :
    refusedOutcome ssStopCfg ssState
      (__rte_msg4 ssStopCfg ssState 0 (RTE_PACK ssStopCfg 5 0x110 4) 1 2 3 4)
      (RTE_MESSAGE_DISABLED ssStopCfg ssState.filter (RTE_PACK ssStopCfg 5 0x110 4) 4) :=
  (single_shot_refusal ssStopCfg ssState 0 0 0 0 0 (RTE_PACK ssStopCfg 5 0x110 4)
    0 0 0 0 [] [] 1 2 3 4 (by decide) (by decide)).2.2.2.2.1 (by decide)

/-- The reservation either refuses (leaving buf_index alone) or advances
buf_index from the wrapped pre-advance index. -/
theorem RTE_RESERVE_SPACE_cases (cfg : RteConfig) (st : Rtedbg) (size : Nat) :
    RTE_RESERVE_SPACE cfg st size =
      ((if cfg.stopAtFirstTooLargeMsg = true then { st with filter := 0 } else st),
       none) ∨
    RTE_RESERVE_SPACE cfg st size =
      ({ st with buf_index := (RTE_LIMIT_INDEX cfg st.buf_index + size) % two32 },
       some (RTE_LIMIT_INDEX cfg st.buf_index)) := by
  by_cases h : cfg.singleShotEnabled = true ∧ st.rte_cfg &&& 1 ≠ 0 ∧
      (st.buf_index + size) % two32 ≥ cfg.bufferSize
  · left; unfold RTE_RESERVE_SPACE; rw [if_pos h]
  · right; unfold RTE_RESERVE_SPACE; rw [if_neg h]

theorem rte_set_filter_buf_index (cfg : RteConfig) (s : Rtedbg) (v : Nat) :
    (rte_set_filter cfg s v).buf_index = s.buf_index := by
  simp only [rte_set_filter]
  split_ifs <;> rfl

/-- rte_init with RTE_RESTART_LOGGING or RTE_SINGLE_SHOT_AND_ERASE_BUFFER
resets the write index to zero. -/
theorem rte_init_restart_buf_index (cfg : RteConfig) (st : Rtedbg) (f m fr : Nat)
    (hm : 2 ≤ m) : (rte_init cfg st f m fr).buf_index = 0 := by
  simp only [rte_init]
  rw [if_pos (Or.inr hm : _ ∨ m ≥ 2)]
  split_ifs <;> simp [rte_set_filter_buf_index]

theorem msgnReservedWords_le (L MS : Nat) (h1 : 1 ≤ MS) (hL : L ≤ 16 * MS) :
    msgnReservedWords L ≤ 5 * MS := by
  simp only [msgnReservedWords]
  split <;> omega

/-- C7 (amended): after a restarting rte_init the write index is 0; every
successful reservation returns a wrapped index inside [0, capacity); but
the stored write index itself is only bounded by capacity + reservation
size - 1 (at most capacity + 5 * RTE_MAX_SUBPACKETS - 1): a straddling
subpacket leaves it at or past the capacity until the next reservation
wraps it. -/
theorem write_index_bounds (cfg : RteConfig) (st : Rtedbg)
    (f m fr ts k0 k1 k2 k3 k4 kn kx L Lx : Nat) (src bytes : List Nat)
    (d1 d2 d3 d4 : Nat)
    (hMS : 1 ≤ cfg.maxSubpackets) (hcap : 0 < cfg.bufferSize)
    (hB : st.buf_index < cfg.bufferSize + 5 * cfg.maxSubpackets) :
    (2 ≤ m → (rte_init cfg st f m fr).buf_index = 0) ∧
    (∀ size st1 idx, RTE_RESERVE_SPACE cfg st size = (st1, some idx) →
      idx < cfg.bufferSize) ∧
    (__rte_msg0 cfg st ts k0).buf_index < cfg.bufferSize + 5 * cfg.maxSubpackets ∧
    (__rte_msg1 cfg st ts k1 d1).buf_index < cfg.bufferSize + 5 * cfg.maxSubpackets ∧
    (__rte_msg2 cfg st ts k2 d1 d2).buf_index < cfg.bufferSize + 5 * cfg.maxSubpackets ∧
    (__rte_msg3 cfg st ts k3 d1 d2 d3).buf_index <
      cfg.bufferSize + 5 * cfg.maxSubpackets ∧
    (__rte_msg4 cfg st ts k4 d1 d2 d3 d4).buf_index <
      cfg.bufferSize + 5 * cfg.maxSubpackets ∧
    (__rte_msgn cfg st ts kn src L).buf_index < cfg.bufferSize + 5 * cfg.maxSubpackets ∧
    (__rte_msgx cfg st ts kx bytes Lx).buf_index <
      cfg.bufferSize + 5 * cfg.maxSubpackets := by
  have hlim := RTE_LIMIT_INDEX_lt cfg st.buf_index hcap
  have hmod : ∀ a : Nat, a % two32 ≤ a := fun a => Nat.mod_le a two32
  refine ⟨fun hm => rte_init_restart_buf_index cfg st f m fr hm, ?_, ?_, ?_, ?_, ?_,
    ?_, ?_, ?_⟩
  · intro size st1 idx h
    rcases RTE_RESERVE_SPACE_cases cfg st size with hc | hc
    · rw [h] at hc
      exact absurd (congrArg Prod.snd hc) (by simp)
    · rw [h] at hc
      have : idx = RTE_LIMIT_INDEX cfg st.buf_index := by
        have := congrArg Prod.snd hc
        simpa using this
      omega
  · by_cases hg : RTE_MESSAGE_DISABLED cfg st.filter k0 0 = true
    · simp only [__rte_msg0, hg, if_true]; omega
    · simp only [__rte_msg0]
      rw [if_neg hg]
      rcases RTE_RESERVE_SPACE_cases cfg st 1 with hc | hc <;> rw [hc]
      · split_ifs <;> exact hB
      · show (RTE_LIMIT_INDEX cfg st.buf_index + 1) % two32 < _
        have := hmod (RTE_LIMIT_INDEX cfg st.buf_index + 1)
        omega
  · by_cases hg : RTE_MESSAGE_DISABLED cfg st.filter k1 1 = true
    · simp only [__rte_msg1, hg, if_true]; omega
    · simp only [__rte_msg1]
      rw [if_neg hg]
      rcases RTE_RESERVE_SPACE_cases cfg st 2 with hc | hc <;> rw [hc]
      · split_ifs <;> exact hB
      · show (RTE_LIMIT_INDEX cfg st.buf_index + 2) % two32 < _
        have := hmod (RTE_LIMIT_INDEX cfg st.buf_index + 2)
        omega
  · by_cases hg : RTE_MESSAGE_DISABLED cfg st.filter k2 2 = true
    · simp only [__rte_msg2, hg, if_true]; omega
    · simp only [__rte_msg2]
      rw [if_neg hg]
      rcases RTE_RESERVE_SPACE_cases cfg st 3 with hc | hc <;> rw [hc]
      · split_ifs <;> exact hB
      · show (RTE_LIMIT_INDEX cfg st.buf_index + 3) % two32 < _
        have := hmod (RTE_LIMIT_INDEX cfg st.buf_index + 3)
        omega
  · by_cases hg : RTE_MESSAGE_DISABLED cfg st.filter k3 3 = true
    · simp only [__rte_msg3, hg, if_true]; omega
    · simp only [__rte_msg3]
      rw [if_neg hg]
      rcases RTE_RESERVE_SPACE_cases cfg st 4 with hc | hc <;> rw [hc]
      · split_ifs <;> exact hB
      · show (RTE_LIMIT_INDEX cfg st.buf_index + 4) % two32 < _
        have := hmod (RTE_LIMIT_INDEX cfg st.buf_index + 4)
        omega
  · by_cases hg : RTE_MESSAGE_DISABLED cfg st.filter k4 4 = true
    · simp only [__rte_msg4, hg, if_true]; omega
    · simp only [__rte_msg4]
      rw [if_neg hg]
      rcases RTE_RESERVE_SPACE_cases cfg st 5 with hc | hc <;> rw [hc]
      · split_ifs <;> exact hB
      · show (RTE_LIMIT_INDEX cfg st.buf_index + 5) % two32 < _
        have := hmod (RTE_LIMIT_INDEX cfg st.buf_index + 5)
        omega
  · by_cases hg : RTE_MESSAGE_DISABLED cfg st.filter kn 4 = true
    · simp only [__rte_msgn, hg, if_true]; omega
    · by_cases hd : L > RTE_MAX_MSG_SIZE cfg ∧ cfg.discardTooLongMessages = true
      · simp only [__rte_msgn]
        rw [if_neg hg, if_pos hd]
        omega
      · simp only [__rte_msgn]
        rw [if_neg hg, if_neg hd]
        have hlen : (if L > RTE_MAX_MSG_SIZE cfg then RTE_MAX_MSG_SIZE cfg else L) ≤
            16 * cfg.maxSubpackets := by
          unfold RTE_MAX_MSG_SIZE
          split <;> omega
        have hsz := msgnReservedWords_le _ _ hMS hlen
        rcases RTE_RESERVE_SPACE_cases cfg st
          (msgnReservedWords
            (if L > RTE_MAX_MSG_SIZE cfg then RTE_MAX_MSG_SIZE cfg else L)) with hc | hc <;>
          rw [hc]
        · split_ifs <;> exact hB
        · show (RTE_LIMIT_INDEX cfg st.buf_index +
            msgnReservedWords
              (if L > RTE_MAX_MSG_SIZE cfg then RTE_MAX_MSG_SIZE cfg else L)) % two32 < _
          have := hmod (RTE_LIMIT_INDEX cfg st.buf_index +
            msgnReservedWords
              (if L > RTE_MAX_MSG_SIZE cfg then RTE_MAX_MSG_SIZE cfg else L))
          omega
  · by_cases hg : RTE_MESSAGE_DISABLED cfg st.filter kx 4 = true
    · simp only [__rte_msgx, hg, if_true]; omega
    · by_cases hd : Lx > RTE_MAX_MSGX_SIZE cfg - 1 ∧ cfg.discardTooLongMessages = true
      · simp only [__rte_msgx]
        rw [if_neg hg, if_pos hd]
        omega
      · simp only [__rte_msgx]
        rw [if_neg hg, if_neg hd]
        have hlen : (if Lx > RTE_MAX_MSGX_SIZE cfg - 1 then RTE_MAX_MSGX_SIZE cfg - 1
            else Lx) ≤ RTE_MAX_MSGX_SIZE cfg - 1 := by
          split <;> omega
        have hmx : RTE_MAX_MSGX_SIZE cfg ≤ 16 * cfg.maxSubpackets ∧
            (cfg.maxSubpackets > 16 → RTE_MAX_MSGX_SIZE cfg = 256) := by
          unfold RTE_MAX_MSGX_SIZE
          split <;> omega
        have hsz : 2 + (if Lx > RTE_MAX_MSGX_SIZE cfg - 1 then RTE_MAX_MSGX_SIZE cfg - 1
            else Lx) / 4 +
            (if Lx > RTE_MAX_MSGX_SIZE cfg - 1 then RTE_MAX_MSGX_SIZE cfg - 1
            else Lx) / 16 ≤ 5 * cfg.maxSubpackets := by
          by_cases h16 : cfg.maxSubpackets > 16 <;> omega
        rcases RTE_RESERVE_SPACE_cases cfg st
          (2 + (if Lx > RTE_MAX_MSGX_SIZE cfg - 1 then RTE_MAX_MSGX_SIZE cfg - 1
            else Lx) / 4 +
            (if Lx > RTE_MAX_MSGX_SIZE cfg - 1 then RTE_MAX_MSGX_SIZE cfg - 1
            else Lx) / 16) with hc | hc <;> rw [hc]
        · split_ifs <;> exact hB
        · show (RTE_LIMIT_INDEX cfg st.buf_index +
            (2 + (if Lx > RTE_MAX_MSGX_SIZE cfg - 1 then RTE_MAX_MSGX_SIZE cfg - 1
              else Lx) / 4 +
              (if Lx > RTE_MAX_MSGX_SIZE cfg - 1 then RTE_MAX_MSGX_SIZE cfg - 1
              else Lx) / 16)) % two32 < _
          have := hmod (RTE_LIMIT_INDEX cfg st.buf_index +
            (2 + (if Lx > RTE_MAX_MSGX_SIZE cfg - 1 then RTE_MAX_MSGX_SIZE cfg - 1
              else Lx) / 4 +
              (if Lx > RTE_MAX_MSGX_SIZE cfg - 1 then RTE_MAX_MSGX_SIZE cfg - 1
              else Lx) / 16))
          omega

set_option maxRecDepth 40000 in
/-- Counterexample for C7 as stated: after the straddling five-word message
of the spec scenario the stored write index is 65, which is not inside
[0, capacity) for capacity 64. -/
theorem write_index_bounds_counterexample :
    straddleState.buf_index = 65 ∧
    ¬ (straddleState.buf_index < smallCfg.bufferSize) := by decide

set_option maxRecDepth 40000 in
/-- Witness for the C7 amended theorem at the straddle state: the write
index 65 is below capacity + 5 * RTE_MAX_SUBPACKETS = 79, and a one-word
message keeps it inside the bound. -/
theorem write_index_bounds_witness :
    straddleState.buf_index < smallCfg.bufferSize + 5 * smallCfg.maxSubpackets ∧
    (__rte_msg0 smallCfg straddleState 0 (RTE_PACK smallCfg 5 0x100 0)).buf_index <
      smallCfg.bufferSize + 5 * smallCfg.maxSubpackets := by
  have hB : straddleState.buf_index <
      smallCfg.bufferSize + 5 * smallCfg.maxSubpackets := by decide
  exact ⟨hB, (write_index_bounds smallCfg straddleState 0 0 0 0
    (RTE_PACK smallCfg 5 0x100 0) 0 0 0 0 0 0 0 0 [] [] 0 0 0 0
    (by decide) (by decide) hB).2.2.1⟩

theorem packStep_mod (acc d : Nat) : packStep acc d % two32 = 2 * d % two32 := by
  simp only [packStep, two32, two64]
  omega

theorem packStep_div (acc d : Nat) :
    packStep acc d / two32 = (2 * (acc / two32) + d / two31) % two32 := by
  simp only [packStep, two32, two64, two31]
  omega

/-- Decoding one DATA word: the stored word (the source shifted left by
one) shifted back right by one, OR the harvested bit re-deposited into bit
31, reproduces the source word. -/
theorem recover_stored (d : Nat) (hd : d < two32) (b : Bool) (hb : b = d.testBit 31) :
    ((d <<< 1) % two32) >>> 1 ||| ((if b then 1 else 0) <<< 31) = d := by
  apply Nat.eq_of_testBit_eq
  intro i
  rw [Nat.testBit_lor, Nat.testBit_shiftRight]
  rcases Nat.lt_trichotomy i 31 with hi | hi | hi
  · have e1 : ((d <<< 1) % two32).testBit (1 + i) = d.testBit i := by
      show ((d <<< 1) % 2 ^ 32).testBit (1 + i) = d.testBit i
      rw [Nat.testBit_mod_two_pow, Nat.testBit_shiftLeft]
      simp [(by omega : 1 + i < 32), (by omega : 1 + i ≥ 1)]
    have e2 : (((if b then 1 else 0) : Nat) <<< 31).testBit i = false := by
      rw [Nat.testBit_shiftLeft, decide_eq_false (by omega : ¬ i ≥ 31), Bool.false_and]
    rw [e1, e2, Bool.or_false]
  · subst hi
    have e1 : ((d <<< 1) % two32).testBit (1 + 31) = false := by
      show ((d <<< 1) % 2 ^ 32).testBit 32 = false
      rw [Nat.testBit_mod_two_pow]
      simp
    have e2 : (((if b then 1 else 0) : Nat) <<< 31).testBit 31 = b := by
      rw [Nat.testBit_shiftLeft]
      cases b <;> simp
    rw [e1, e2, Bool.false_or, hb]
  · have e1 : ((d <<< 1) % two32).testBit (1 + i) = false := by
      show ((d <<< 1) % 2 ^ 32).testBit (1 + i) = false
      rw [Nat.testBit_mod_two_pow, decide_eq_false (by omega : ¬ 1 + i < 32),
        Bool.false_and]
    have e2 : (((if b then 1 else 0) : Nat) <<< 31).testBit i = false := by
      rw [Nat.testBit_shiftLeft]
      have : ((if b then 1 else 0) : Nat) < 2 ^ 1 := by cases b <;> simp
      rw [testBit_eq_false_of_lt_le this (by omega)]
      simp
    have e3 : d.testBit i = false := by
      apply testBit_eq_false_of_lt_le (i := 32)
      · show d < 2 ^ 32; simpa [two32] using hd
      · omega
    rw [e1, e2, e3]
    simp

theorem rteTimestamp_lt (ts : Nat) : rteTimestamp stdCfg ts ||| 1 < 2 ^ 22 := by
  apply Nat.or_lt_two_pow
  · exact lt_of_le_of_lt Nat.and_le_right (by decide)
  · norm_num

/-- Bits 22 .. 31 of an FMT word under stdCfg are the bits of the value that
was shifted into the top field (harvested bits and format ID). -/
theorem fmt_testBit (ts1 b31 k : Nat) (hts : ts1 < 2 ^ 22) (hk : k < 10) :
    (ts1 ||| ((b31 <<< 22) % two32)).testBit (22 + k) = b31.testBit k := by
  rw [Nat.testBit_lor, testBit_eq_false_of_lt_le hts (by omega), Bool.false_or]
  show ((b31 <<< 22) % 2 ^ 32).testBit (22 + k) = _
  rw [Nat.testBit_mod_two_pow, Nat.testBit_shiftLeft,
    decide_eq_true (by omega : 22 + k < 32),
    decide_eq_true (by omega : 22 + k ≥ 22), Bool.true_and, Bool.true_and,
    Nat.add_sub_cancel_left]

theorem stdCfg_limit_le (x : Nat) : RTE_LIMIT_INDEX stdCfg x ≤ 2047 := by
  unfold RTE_LIMIT_INDEX
  rw [if_pos (by decide)]
  exact Nat.and_le_right

/-- One DATA word of a committed subpacket, as seen by a decoder: the word
stored at position pos is the source word shifted left by one (bit 31
harvested, bit 0 vacated), the harvested bit sits at bit hpos of the FMT
word f and equals bit 31 of the source, and shifting the stored word back
right and OR-ing the harvested bit into bit 31 reproduces the source. -/
def storedAndHarvest (buf : List Nat) (pos d f hpos : Nat) : Prop :=
  buf[pos]? = some ((d <<< 1) % two32) ∧
  f.testBit hpos = d.testBit 31 ∧
  ((d <<< 1) % two32) >>> 1 ||| ((if f.testBit hpos then 1 else 0) <<< 31) = d

instance (buf : List Nat) (pos d f hpos : Nat) :
    Decidable (storedAndHarvest buf pos d f hpos) := by
  unfold storedAndHarvest
  infer_instance

/-- C1 (amended): for every admitted __rte_msg1 .. __rte_msg4 call under
stdCfg, each DATA word is stored as the source word shifted LEFT BY ONE bit
modulo 2^32 (not merely with bit 31 cleared); the bits harvested into the
FMT word equal the original bit-31 values of the source words, the first
source word occupying the highest harvested position; and shifting each
stored word back right by one and OR-ing its harvested bit into bit 31
reproduces the source words bitwise exactly. -/
theorem msg_data_word_shift_and_harvest (st : Rtedbg) (ts key d1 d2 d3 d4 : Nat)
    (hlen : st.buffer.length = 2052) (hkey : key < two32)
    (h1 : d1 < two32) (h2 : d2 < two32) (h3 : d3 < two32) (h4 : d4 < two32) :
    (RTE_MESSAGE_DISABLED stdCfg st.filter key 1 = false →
      ∃ f, (__rte_msg1 stdCfg st ts key d1).buffer[RTE_LIMIT_INDEX stdCfg
          st.buf_index + 1]? = some f ∧
        storedAndHarvest (__rte_msg1 stdCfg st ts key d1).buffer
          (RTE_LIMIT_INDEX stdCfg st.buf_index) d1 f 22) ∧
    (RTE_MESSAGE_DISABLED stdCfg st.filter key 2 = false →
      ∃ f, (__rte_msg2 stdCfg st ts key d1 d2).buffer[RTE_LIMIT_INDEX stdCfg
          st.buf_index + 2]? = some f ∧
        storedAndHarvest (__rte_msg2 stdCfg st ts key d1 d2).buffer
          (RTE_LIMIT_INDEX stdCfg st.buf_index) d1 f 23 ∧
        storedAndHarvest (__rte_msg2 stdCfg st ts key d1 d2).buffer
          (RTE_LIMIT_INDEX stdCfg st.buf_index + 1) d2 f 22) ∧
    (RTE_MESSAGE_DISABLED stdCfg st.filter key 3 = false →
      ∃ f, (__rte_msg3 stdCfg st ts key d1 d2 d3).buffer[RTE_LIMIT_INDEX stdCfg
          st.buf_index + 3]? = some f ∧
        storedAndHarvest (__rte_msg3 stdCfg st ts key d1 d2 d3).buffer
          (RTE_LIMIT_INDEX stdCfg st.buf_index) d1 f 24 ∧
        storedAndHarvest (__rte_msg3 stdCfg st ts key d1 d2 d3).buffer
          (RTE_LIMIT_INDEX stdCfg st.buf_index + 1) d2 f 23 ∧
        storedAndHarvest (__rte_msg3 stdCfg st ts key d1 d2 d3).buffer
          (RTE_LIMIT_INDEX stdCfg st.buf_index + 2) d3 f 22) ∧
    (RTE_MESSAGE_DISABLED stdCfg st.filter key 4 = false →
      ∃ f, (__rte_msg4 stdCfg st ts key d1 d2 d3 d4).buffer[RTE_LIMIT_INDEX stdCfg
          st.buf_index + 4]? = some f ∧
        storedAndHarvest (__rte_msg4 stdCfg st ts key d1 d2 d3 d4).buffer
          (RTE_LIMIT_INDEX stdCfg st.buf_index) d1 f 25 ∧
        storedAndHarvest (__rte_msg4 stdCfg st ts key d1 d2 d3 d4).buffer
          (RTE_LIMIT_INDEX stdCfg st.buf_index + 1) d2 f 24 ∧
        storedAndHarvest (__rte_msg4 stdCfg st ts key d1 d2 d3 d4).buffer
          (RTE_LIMIT_INDEX stdCfg st.buf_index + 2) d3 f 23 ∧
        storedAndHarvest (__rte_msg4 stdCfg st ts key d1 d2 d3 d4).buffer
          (RTE_LIMIT_INDEX stdCfg st.buf_index + 3) d4 f 22) := by
  have hI := stdCfg_limit_le st.buf_index
  have hpos : 0 < two32 := by norm_num [two32]
  have hshl : ∀ d : Nat, (d <<< 1) % two32 = 2 * d % two32 := by
    intro d
    rw [Nat.shiftLeft_eq]
    ring_nf
  refine ⟨?_, ?_, ?_, ?_⟩
  · intro hg
    simp only [__rte_msg1]
    rw [if_neg (by simp [hg]), RTE_RESERVE_SPACE_success stdCfg st 2 (Or.inl rfl)]
    simp only
    set I := RTE_LIMIT_INDEX stdCfg st.buf_index with hIdef
    set acc1 := packStep (key * two32) d1 with hacc1
    set f := rteTimestamp stdCfg ts ||| 1 |||
      (((acc1 / two32) <<< (32 - stdCfg.fmtIdBits)) % two32) with hf
    have hb1 : acc1 / two32 = (2 * key + d1 / two31) % two32 := by
      rw [hacc1, packStep_div, Nat.mul_div_cancel _ hpos]
    have hharv1 : f.testBit 22 = d1.testBit 31 := by
      have e : f.testBit 22 = (acc1 / two32).testBit 0 := by
        rw [hf]
        show ((rteTimestamp stdCfg ts ||| 1) |||
          ((acc1 / two32) <<< 22 % two32)).testBit (22 + 0) = _
        exact fmt_testBit _ _ 0 (rteTimestamp_lt ts) (by omega)
      rw [e, Nat.testBit_to_div_mod, Nat.testBit_to_div_mod]
      apply decide_eq_decide.mpr
      simp only [two31, two32] at *
      omega
    refine ⟨f, ?_, ?_, hharv1, ?_⟩
    · rw [List.getElem?_set_self (by simp [List.length_set, hlen]; omega)]
    · rw [List.getElem?_set_ne (by omega),
        List.getElem?_set_self (by simp [hlen]; omega), packStep_mod, hshl d1]
    · exact recover_stored d1 h1 _ hharv1
  · intro hg
    simp only [__rte_msg2]
    rw [if_neg (by simp [hg]), RTE_RESERVE_SPACE_success stdCfg st 3 (Or.inl rfl)]
    simp only
    set I := RTE_LIMIT_INDEX stdCfg st.buf_index with hIdef
    set acc1 := packStep (key * two32) d1 with hacc1
    set acc2 := packStep acc1 d2 with hacc2
    set f := rteTimestamp stdCfg ts ||| 1 |||
      (((acc2 / two32) <<< (32 - stdCfg.fmtIdBits)) % two32) with hf
    have hb1 : acc1 / two32 = (2 * key + d1 / two31) % two32 := by
      rw [hacc1, packStep_div, Nat.mul_div_cancel _ hpos]
    have hb2 : acc2 / two32 = (2 * (acc1 / two32) + d2 / two31) % two32 := by
      rw [hacc2, packStep_div]
    have hfb : ∀ k, k < 10 → f.testBit (22 + k) = (acc2 / two32).testBit k := by
      intro k hk
      rw [hf]
      show ((rteTimestamp stdCfg ts ||| 1) |||
        ((acc2 / two32) <<< 22 % two32)).testBit (22 + k) = _
      exact fmt_testBit _ _ k (rteTimestamp_lt ts) hk
    have hharv1 : f.testBit 23 = d1.testBit 31 := by
      have e := hfb 1 (by omega)
      rw [(by norm_num : (23 : Nat) = 22 + 1), e, Nat.testBit_to_div_mod,
        Nat.testBit_to_div_mod]
      apply decide_eq_decide.mpr
      simp only [two31, two32] at *
      omega
    have hharv2 : f.testBit 22 = d2.testBit 31 := by
      have e := hfb 0 (by omega)
      rw [(by norm_num : (22 : Nat) = 22 + 0), e, Nat.testBit_to_div_mod,
        Nat.testBit_to_div_mod]
      apply decide_eq_decide.mpr
      simp only [two31, two32] at *
      omega
    refine ⟨f, ?_, ⟨?_, hharv1, ?_⟩, ⟨?_, hharv2, ?_⟩⟩
    · rw [List.getElem?_set_self (by simp [List.length_set, hlen]; omega)]
    · rw [List.getElem?_set_ne (by omega), List.getElem?_set_ne (by omega),
        List.getElem?_set_self (by simp [hlen]; omega), packStep_mod, hshl d1]
    · exact recover_stored d1 h1 _ hharv1
    · rw [List.getElem?_set_ne (by omega),
        List.getElem?_set_self (by simp [List.length_set, hlen]; omega),
        packStep_mod, hshl d2]
    · exact recover_stored d2 h2 _ hharv2
  · intro hg
    simp only [__rte_msg3]
    rw [if_neg (by simp [hg]), RTE_RESERVE_SPACE_success stdCfg st 4 (Or.inl rfl)]
    simp only
    set I := RTE_LIMIT_INDEX stdCfg st.buf_index with hIdef
    set acc1 := packStep (key * two32) d1 with hacc1
    set acc2 := packStep acc1 d2 with hacc2
    set acc3 := packStep acc2 d3 with hacc3
    set f := rteTimestamp stdCfg ts ||| 1 |||
      (((acc3 / two32) <<< (32 - stdCfg.fmtIdBits)) % two32) with hf
    have hb1 : acc1 / two32 = (2 * key + d1 / two31) % two32 := by
      rw [hacc1, packStep_div, Nat.mul_div_cancel _ hpos]
    have hb2 : acc2 / two32 = (2 * (acc1 / two32) + d2 / two31) % two32 := by
      rw [hacc2, packStep_div]
    have hb3 : acc3 / two32 = (2 * (acc2 / two32) + d3 / two31) % two32 := by
      rw [hacc3, packStep_div]
    have hfb : ∀ k, k < 10 → f.testBit (22 + k) = (acc3 / two32).testBit k := by
      intro k hk
      rw [hf]
      show ((rteTimestamp stdCfg ts ||| 1) |||
        ((acc3 / two32) <<< 22 % two32)).testBit (22 + k) = _
      exact fmt_testBit _ _ k (rteTimestamp_lt ts) hk
    have hharv1 : f.testBit 24 = d1.testBit 31 := by
      have e := hfb 2 (by omega)
      rw [(by norm_num : (24 : Nat) = 22 + 2), e, Nat.testBit_to_div_mod,
        Nat.testBit_to_div_mod]
      apply decide_eq_decide.mpr
      simp only [two31, two32] at *
      omega
    have hharv2 : f.testBit 23 = d2.testBit 31 := by
      have e := hfb 1 (by omega)
      rw [(by norm_num : (23 : Nat) = 22 + 1), e, Nat.testBit_to_div_mod,
        Nat.testBit_to_div_mod]
      apply decide_eq_decide.mpr
      simp only [two31, two32] at *
      omega
    have hharv3 : f.testBit 22 = d3.testBit 31 := by
      have e := hfb 0 (by omega)
      rw [(by norm_num : (22 : Nat) = 22 + 0), e, Nat.testBit_to_div_mod,
        Nat.testBit_to_div_mod]
      apply decide_eq_decide.mpr
      simp only [two31, two32] at *
      omega
    refine ⟨f, ?_, ⟨?_, hharv1, ?_⟩, ⟨?_, hharv2, ?_⟩, ⟨?_, hharv3, ?_⟩⟩
    · rw [List.getElem?_set_self (by simp [List.length_set, hlen]; omega)]
    · rw [List.getElem?_set_ne (by omega), List.getElem?_set_ne (by omega),
        List.getElem?_set_ne (by omega),
        List.getElem?_set_self (by simp [hlen]; omega), packStep_mod, hshl d1]
    · exact recover_stored d1 h1 _ hharv1
    · rw [List.getElem?_set_ne (by omega), List.getElem?_set_ne (by omega),
        List.getElem?_set_self (by simp [List.length_set, hlen]; omega),
        packStep_mod, hshl d2]
    · exact recover_stored d2 h2 _ hharv2
    · rw [List.getElem?_set_ne (by omega),
        List.getElem?_set_self (by simp [List.length_set, hlen]; omega),
        packStep_mod, hshl d3]
    · exact recover_stored d3 h3 _ hharv3
  · intro hg
    simp only [__rte_msg4]
    rw [if_neg (by simp [hg]), RTE_RESERVE_SPACE_success stdCfg st 5 (Or.inl rfl)]
    simp only
    set I := RTE_LIMIT_INDEX stdCfg st.buf_index with hIdef
    set acc1 := packStep (key * two32) d1 with hacc1
    set acc2 := packStep acc1 d2 with hacc2
    set acc3 := packStep acc2 d3 with hacc3
    set acc4 := packStep acc3 d4 with hacc4
    set f := rteTimestamp stdCfg ts ||| 1 |||
      (((acc4 / two32) <<< (32 - stdCfg.fmtIdBits)) % two32) with hf
    have hb1 : acc1 / two32 = (2 * key + d1 / two31) % two32 := by
      rw [hacc1, packStep_div, Nat.mul_div_cancel _ hpos]
    have hb2 : acc2 / two32 = (2 * (acc1 / two32) + d2 / two31) % two32 := by
      rw [hacc2, packStep_div]
    have hb3 : acc3 / two32 = (2 * (acc2 / two32) + d3 / two31) % two32 := by
      rw [hacc3, packStep_div]
    have hb4 : acc4 / two32 = (2 * (acc3 / two32) + d4 / two31) % two32 := by
      rw [hacc4, packStep_div]
    have hfb : ∀ k, k < 10 → f.testBit (22 + k) = (acc4 / two32).testBit k := by
      intro k hk
      rw [hf]
      show ((rteTimestamp stdCfg ts ||| 1) |||
        ((acc4 / two32) <<< 22 % two32)).testBit (22 + k) = _
      exact fmt_testBit _ _ k (rteTimestamp_lt ts) hk
    have hharv1 : f.testBit 25 = d1.testBit 31 := by
      have e := hfb 3 (by omega)
      rw [(by norm_num : (25 : Nat) = 22 + 3), e, Nat.testBit_to_div_mod,
        Nat.testBit_to_div_mod]
      apply decide_eq_decide.mpr
      simp only [two31, two32] at *
      omega
    have hharv2 : f.testBit 24 = d2.testBit 31 := by
      have e := hfb 2 (by omega)
      rw [(by norm_num : (24 : Nat) = 22 + 2), e, Nat.testBit_to_div_mod,
        Nat.testBit_to_div_mod]
      apply decide_eq_decide.mpr
      simp only [two31, two32] at *
      omega
    have hharv3 : f.testBit 23 = d3.testBit 31 := by
      have e := hfb 1 (by omega)
      rw [(by norm_num : (23 : Nat) = 22 + 1), e, Nat.testBit_to_div_mod,
        Nat.testBit_to_div_mod]
      apply decide_eq_decide.mpr
      simp only [two31, two32] at *
      omega
    have hharv4 : f.testBit 22 = d4.testBit 31 := by
      have e := hfb 0 (by omega)
      rw [(by norm_num : (22 : Nat) = 22 + 0), e, Nat.testBit_to_div_mod,
        Nat.testBit_to_div_mod]
      apply decide_eq_decide.mpr
      simp only [two31, two32] at *
      omega
    refine ⟨f, ?_, ⟨?_, hharv1, ?_⟩, ⟨?_, hharv2, ?_⟩, ⟨?_, hharv3, ?_⟩,
      ⟨?_, hharv4, ?_⟩⟩
    · rw [List.getElem?_set_self (by simp [List.length_set, hlen]; omega)]
    · rw [List.getElem?_set_ne (by omega), List.getElem?_set_ne (by omega),
        List.getElem?_set_ne (by omega), List.getElem?_set_ne (by omega),
        List.getElem?_set_self (by simp [hlen]; omega), packStep_mod, hshl d1]
    · exact recover_stored d1 h1 _ hharv1
    · rw [List.getElem?_set_ne (by omega), List.getElem?_set_ne (by omega),
        List.getElem?_set_ne (by omega),
        List.getElem?_set_self (by simp [List.length_set, hlen]; omega),
        packStep_mod, hshl d2]
    · exact recover_stored d2 h2 _ hharv2
    · rw [List.getElem?_set_ne (by omega), List.getElem?_set_ne (by omega),
        List.getElem?_set_self (by simp [List.length_set, hlen]; omega),
        packStep_mod, hshl d3]
    · exact recover_stored d3 h3 _ hharv3
    · rw [List.getElem?_set_ne (by omega),
        List.getElem?_set_self (by simp [List.length_set, hlen]; omega),
        packStep_mod, hshl d4]
    · exact recover_stored d4 h4 _ hharv4

/-- A freshly erased stdCfg state with all filters enabled. -/
def stdState : Rtedbg :=
  { buf_index := 0, filter := 0xFFFFFFFF, rte_cfg := RTE_CONFIG_ID stdCfg,
    timestamp_frequency := 1000, filter_copy := 0xFFFFFFFF, buffer_size := 2052,
    buffer := List.replicate 2052 RTE_ERASED_STATE }

/-- Witness for the C1 amended theorem: a concrete admitted msg4 call. -/
theorem msg_data_word_shift_and_harvest_witness :
    ∃ f, (__rte_msg4 stdCfg stdState 0x1234 (RTE_PACK stdCfg 3 0x1F0 4)
        0x80000001 2 0x80000000 0x7FFFFFFF).buffer[RTE_LIMIT_INDEX stdCfg
        stdState.buf_index + 4]? = some f ∧
      storedAndHarvest (__rte_msg4 stdCfg stdState 0x1234 (RTE_PACK stdCfg 3 0x1F0 4)
        0x80000001 2 0x80000000 0x7FFFFFFF).buffer
        (RTE_LIMIT_INDEX stdCfg stdState.buf_index) 0x80000001 f 25 ∧
      storedAndHarvest (__rte_msg4 stdCfg stdState 0x1234 (RTE_PACK stdCfg 3 0x1F0 4)
        0x80000001 2 0x80000000 0x7FFFFFFF).buffer
        (RTE_LIMIT_INDEX stdCfg stdState.buf_index + 1) 2 f 24 ∧
      storedAndHarvest (__rte_msg4 stdCfg stdState 0x1234 (RTE_PACK stdCfg 3 0x1F0 4)
        0x80000001 2 0x80000000 0x7FFFFFFF).buffer
        (RTE_LIMIT_INDEX stdCfg stdState.buf_index + 2) 0x80000000 f 23 ∧
      storedAndHarvest (__rte_msg4 stdCfg stdState 0x1234 (RTE_PACK stdCfg 3 0x1F0 4)
        0x80000001 2 0x80000000 0x7FFFFFFF).buffer
        (RTE_LIMIT_INDEX stdCfg stdState.buf_index + 3) 0x7FFFFFFF f 22 :=
  (msg_data_word_shift_and_harvest stdState 0x1234 (RTE_PACK stdCfg 3 0x1F0 4)
    0x80000001 2 0x80000000 0x7FFFFFFF
    (by show (List.replicate 2052 RTE_ERASED_STATE).length = 2052
        rw [List.length_replicate])
    (by decide) (by decide) (by decide) (by decide) (by decide)).2.2.2 (by decide)

set_option maxRecDepth 40000 in
/-- Counterexample for C1 as stated: an admitted __rte_msg1 call with source
word 1 stores the DATA word 2 (the source shifted left by one), not the
source word with bit 31 cleared, which would be 1. -/
theorem msg_data_word_shift_and_harvest_counterexample :
    (__rte_msg1 smallCfg initState64 0 (RTE_PACK smallCfg 0 0x100 1) 1).buffer[0]? =
      some 2 ∧
    ¬ ((__rte_msg1 smallCfg initState64 0 (RTE_PACK smallCfg 0 0x100 1) 1).buffer[0]?
      = some (1 &&& 0x7FFFFFFF)) := by decide

set_option maxRecDepth 40000 in
/-- Counterexample for C4 as stated: the harvest scenario of the spec
(msg2 with data1 = 0x80000001, data2 = 0x00000002) stores the first DATA
word as 0x00000002 (source shifted left), not 0x00000001 as claimed. -/
theorem msg2_harvest_order_counterexample :
    (__rte_msg2 smallCfg initState64 0 (RTE_PACK smallCfg 0 0x40 2) 0x80000001
      0x00000002).buffer[0]? = some 0x00000002 ∧
    ¬ ((__rte_msg2 smallCfg initState64 0 (RTE_PACK smallCfg 0 0x40 2) 0x80000001
      0x00000002).buffer[0]? = some 0x00000001) := by decide

set_option maxRecDepth 40000 in
/-- C4 (amended): for msg2 with data1 = 0x80000001 and data2 = 0x00000002
the stored DATA words are 0x00000002 and 0x00000004 (the sources shifted
left by one bit); in the harvested-bit field of the FMT word 0x10800001 the
HIGHER position (bit 23) carries bit 31 of the FIRST data word (1) and the
lower position (bit 22) carries bit 31 of the second data word (0); undoing
the shift and restoring the harvested bits reproduces both sources. -/
theorem msg2_harvest_order :
    (__rte_msg2 smallCfg initState64 0 (RTE_PACK smallCfg 0 0x40 2) 0x80000001
      0x00000002).buffer[2]? = some 0x10800001 ∧
    storedAndHarvest (__rte_msg2 smallCfg initState64 0 (RTE_PACK smallCfg 0 0x40 2)
      0x80000001 0x00000002).buffer 0 0x80000001 0x10800001 23 ∧
    storedAndHarvest (__rte_msg2 smallCfg initState64 0 (RTE_PACK smallCfg 0 0x40 2)
      0x80000001 0x00000002).buffer 1 0x00000002 0x10800001 22 := by decide

theorem packDataWords_length (acc : Nat) (ws : List Nat) :
    (packDataWords acc ws).1.length = ws.length := by
  induction ws generalizing acc with
  | nil => rfl
  | cons d rest ih => simp [packDataWords, ih]

theorem and_shifted_mask_mod (y m s k : Nat) (hks : k ≤ s) :
    (y &&& (m <<< s)) % 2 ^ k = 0 := by
  apply Nat.eq_of_testBit_eq
  intro i
  rw [Nat.testBit_mod_two_pow, Nat.testBit_land, Nat.testBit_shiftLeft, Nat.zero_testBit]
  by_cases hi : i < k
  · rw [decide_eq_true hi, Bool.true_and, decide_eq_false (by omega : ¬ i ≥ s),
      Bool.false_and, Bool.and_false]
  · rw [decide_eq_false hi, Bool.false_and]

/-- The harvested-bits field of an FMT word occupies bits 22 and above under
stdCfg, so the low 22 bits (commit bit and timestamp) are those of the base
word. -/
theorem fmt_word_mod_low (tsW b : Nat) :
    (tsW ||| ((b <<< 22) % two32)) % 2 ^ 22 = tsW % 2 ^ 22 := by
  have h32 : two32 = 2 ^ 32 := by norm_num [two32]
  have h0 : ((b <<< 22) % two32) % 2 ^ 22 = 0 := by
    rw [h32, Nat.shiftLeft_eq]
    omega
  rw [lor_mod_two_pow, h0]
  simp

set_option maxHeartbeats 4000000 in
/-- Shape of the __rte_msgn subpacket loop: with no_words = n at least 1,
the loop emits exactly ceil(n / 5) subpackets, each consisting of one to
four DATA words followed by one FMT word whose low 22 bits equal those of
the shared base word (commit bit and truncated timestamp). -/
theorem msgnLoop_trace (tsW : Nat) (src buffer : List Nat) (idx n : Nat) (hn : 1 ≤ n) :
    (msgnLoop stdCfg tsW src buffer idx n).2.length = (n + 4) / 5 ∧
    ∀ sp ∈ (msgnLoop stdCfg tsW src buffer idx n).2,
      1 ≤ sp.length ∧ sp.length ≤ 5 ∧
      ∃ fw, sp.getLast? = some fw ∧ fw % 2 ^ 22 = tsW % 2 ^ 22 := by
  induction n using Nat.strong_induction_on generalizing src buffer idx with
  | _ n ih =>
    rw [msgnLoop]
    by_cases h : n > 5
    · rw [dif_pos h]
      constructor
      · simp only [List.length_cons]
        rw [(ih (n - 5) (by omega) _ _ _ (by omega)).1]
        omega
      · intro sp hsp
        simp only [List.mem_cons] at hsp
        rcases hsp with rfl | hmem
        · refine ⟨?_, ?_, ?_⟩
          · simp only [List.length_append, packDataWords_length, List.length_map,
              List.length_range, List.length_singleton]
            omega
          · simp only [List.length_append, packDataWords_length, List.length_map,
              List.length_range, List.length_singleton]
            omega
          · exact ⟨_, List.getLast?_concat _, fmt_word_mod_low tsW _⟩
        · exact (ih (n - 5) (by omega) _ _ _ (by omega)).2 sp hmem
    · rw [dif_neg h]
      constructor
      · simp only [List.length_singleton]
        omega
      · intro sp hsp
        simp only [List.mem_singleton] at hsp
        subst hsp
        refine ⟨?_, ?_, ?_⟩
        · simp only [List.length_append, packDataWords_length, List.length_map,
            List.length_range, List.length_singleton]
          omega
        · simp only [List.length_append, packDataWords_length, List.length_map,
            List.length_range, List.length_singleton]
          omega
        · exact ⟨_, List.getLast?_concat _, fmt_word_mod_low tsW _⟩

theorem rteTimestamp_lt_pow (ts : Nat) : rteTimestamp stdCfg ts < 2 ^ 22 :=
  lt_of_le_of_lt Nat.and_le_right (by decide)

/-- The low 22 bits of the msgn base word are the masked timestamp and the
commit bit; the format ID field lives in bits 26 and above. -/
theorem msgnTsWord_mod (ts key : Nat) :
    msgnTsWord stdCfg ts key % 2 ^ 22 = rteTimestamp stdCfg ts ||| 1 := by
  simp only [msgnTsWord]
  rw [lor_mod_two_pow, lor_mod_two_pow]
  have hm : (((key <<< (32 - (stdCfg.fmtIdBits - 4))) % two32) &&&
      (((1 <<< (stdCfg.fmtIdBits - 4)) - 1) <<< (32 - (stdCfg.fmtIdBits - 4)))) %
      2 ^ 22 = 0 := and_shifted_mask_mod _ _ _ _ (by decide)
  rw [hm, Nat.mod_eq_of_lt (rteTimestamp_lt_pow ts)]
  simp

/-- C9: an admitted __rte_msgn call with byte length L within the size cap
reserves ceil(L/4) + ceil(L/16) words (minimum 1) and emits ceil(L/16)
subpackets (exactly one, the FMT word alone, for L = 0), each subpacket
holding at most four DATA words plus exactly one trailing FMT word, and all
FMT words carry the same timestamp (their low 22 bits all equal the shared
masked timestamp with the commit bit). -/
theorem msgn_subpacket_structure (st : Rtedbg) (ts key L : Nat) (src : List Nat)
    (hL : L ≤ RTE_MAX_MSG_SIZE stdCfg)
    (hg : RTE_MESSAGE_DISABLED stdCfg st.filter key 4 = false) :
    msgnReservedWords L = max 1 ((L + 3) / 4 + (L + 15) / 16) ∧
    (__rte_msgn stdCfg st ts key src L).buf_index =
      (RTE_LIMIT_INDEX stdCfg st.buf_index + msgnReservedWords L) % two32 ∧
    (__rte_msgn stdCfg st ts key src L).buffer =
      (msgnLoop stdCfg (msgnTsWord stdCfg ts key) src st.buffer
        (RTE_LIMIT_INDEX stdCfg st.buf_index) (msgnReservedWords L)).1 ∧
    (msgnLoop stdCfg (msgnTsWord stdCfg ts key) src st.buffer
      (RTE_LIMIT_INDEX stdCfg st.buf_index) (msgnReservedWords L)).2.length =
      (if L = 0 then 1 else (L + 15) / 16) ∧
    (∀ sp ∈ (msgnLoop stdCfg (msgnTsWord stdCfg ts key) src st.buffer
      (RTE_LIMIT_INDEX stdCfg st.buf_index) (msgnReservedWords L)).2,
      1 ≤ sp.length ∧ sp.length ≤ 5 ∧
      ∃ fw, sp.getLast? = some fw ∧ fw % 2 ^ 22 = rteTimestamp stdCfg ts ||| 1) ∧
    (L = 0 →
      (msgnLoop stdCfg (msgnTsWord stdCfg ts key) src st.buffer
        (RTE_LIMIT_INDEX stdCfg st.buf_index) (msgnReservedWords L)).2 =
      [[msgnTsWord stdCfg ts key]]) := by
  have hone : 1 ≤ msgnReservedWords L := by
    simp only [msgnReservedWords]
    split <;> omega
  have htrace := msgnLoop_trace (msgnTsWord stdCfg ts key) src st.buffer
    (RTE_LIMIT_INDEX stdCfg st.buf_index) (msgnReservedWords L) hone
  have hnd : ¬ (L > RTE_MAX_MSG_SIZE stdCfg ∧ stdCfg.discardTooLongMessages = true) := by
    rintro ⟨hgt, -⟩
    omega
  have hnl : ¬ L > RTE_MAX_MSG_SIZE stdCfg := by omega
  refine ⟨?_, ?_, ?_, ?_, ?_, ?_⟩
  · simp only [msgnReservedWords]
    split <;> omega
  · simp only [__rte_msgn]
    rw [if_neg (by simp [hg]), if_neg hnd, if_neg hnl,
      RTE_RESERVE_SPACE_success stdCfg st _ (Or.inl rfl)]
  · simp only [__rte_msgn]
    rw [if_neg (by simp [hg]), if_neg hnd, if_neg hnl,
      RTE_RESERVE_SPACE_success stdCfg st _ (Or.inl rfl)]
  · rw [htrace.1]
    by_cases hL0 : L = 0
    · subst hL0
      simp [msgnReservedWords]
    · rw [if_neg hL0]
      simp only [msgnReservedWords]
      rw [if_neg (by omega : ¬ (L + 3) / 4 + (L + 15) / 16 = 0)]
      omega
  · intro sp hsp
    obtain ⟨ha, hb, fw, hlast, hmod⟩ := htrace.2 sp hsp
    exact ⟨ha, hb, fw, hlast, by rw [hmod, msgnTsWord_mod]⟩
  · intro hL0
    subst hL0
    have h1 : msgnReservedWords 0 = 1 := by decide
    rw [h1, msgnLoop]
    norm_num [packDataWords]

/-- Witness for the C9 theorem: an admitted 17-byte message reserves 7
words and emits 2 subpackets, and an admitted 0-byte message emits exactly
one subpacket holding only the FMT word. -/
theorem msgn_subpacket_structure_witness :
    (msgnReservedWords 17 = max 1 ((17 + 3) / 4 + (17 + 15) / 16) ∧
     (msgnLoop stdCfg (msgnTsWord stdCfg 5 (RTE_PACK stdCfg 2 0x200 4)) [1, 2, 3, 4, 5]
       stdState.buffer (RTE_LIMIT_INDEX stdCfg stdState.buf_index)
       (msgnReservedWords 17)).2.length = (if 17 = 0 then 1 else (17 + 15) / 16)) ∧
    (msgnLoop stdCfg (msgnTsWord stdCfg 5 (RTE_PACK stdCfg 2 0x200 4)) []
      stdState.buffer (RTE_LIMIT_INDEX stdCfg stdState.buf_index)
      (msgnReservedWords 0)).2 =
      [[msgnTsWord stdCfg 5 (RTE_PACK stdCfg 2 0x200 4)]] := by
  have h := msgn_subpacket_structure stdState 5 (RTE_PACK stdCfg 2 0x200 4) 17
    [1, 2, 3, 4, 5] (by decide) (by decide)
  have h0 := msgn_subpacket_structure stdState 5 (RTE_PACK stdCfg 2 0x200 4) 0
    [] (by decide) (by decide)
  exact ⟨⟨h.1, h.2.2.2.1⟩, h0.2.2.2.2.2 rfl⟩

theorem getD_byte_lt (bytes : List Nat) (hbytes : ∀ b ∈ bytes, b < 256) (p : Nat) :
    bytes.getD p 0 < 256 := by
  rw [List.getD_eq_getElem?_getD]
  rcases hq : bytes[p]? with _ | b
  · simp
  · simpa using hbytes b (List.getElem?_mem hq)

theorem msgxByteWord_lt (bytes : List Nat) (hbytes : ∀ b ∈ bytes, b < 256)
    (pos rem : Nat) (hrem : rem < 4) : msgxByteWord bytes pos rem < 2 ^ 24 := by
  have h0 := getD_byte_lt bytes hbytes pos
  have h1 := getD_byte_lt bytes hbytes (pos + 1)
  have h2 := getD_byte_lt bytes hbytes (pos + 2)
  unfold msgxByteWord
  rw [if_neg (by omega)]
  split_ifs with e3 e2 e1
  · apply Nat.or_lt_two_pow
    · apply Nat.or_lt_two_pow
      · omega
      · rw [Nat.shiftLeft_eq]; omega
    · rw [Nat.shiftLeft_eq]; omega
  · apply Nat.or_lt_two_pow
    · omega
    · rw [Nat.shiftLeft_eq]; omega
  · omega
  · omega

theorem packStep_parity (acc W : Nat) (hW : W < two32) :
    (packStep acc W / two32) % 2 = W / two31 := by
  rw [packStep_div]
  simp only [two31, two32] at *
  omega

theorem shl_one_mod (d : Nat) : 2 * d % two32 = (d <<< 1) % two32 := by
  rw [Nat.shiftLeft_eq]
  ring_nf

/-- The length-carrying word terminates the inner loop of __rte_msgx: for
fewer than 16 remaining bytes the final accumulator comes from packing a
word whose low 24 bits are source bytes and whose top byte is the length,
and the last stored word is that accumulator's low half. -/
theorem msgxInner_final (L : Nat) (bytes : List Nat) (pos rem acc : Nat)
    (hrem : rem < 16) (hbytes : ∀ b ∈ bytes, b < 256) :
    ∃ w accPrev, w < 2 ^ 24 ∧
      (msgxInner L bytes pos rem acc 4).acc =
        packStep accPrev (w ||| (L <<< 24)) ∧
      (msgxInner L bytes pos rem acc 4).stored.getLast? =
        some ((msgxInner L bytes pos rem acc 4).acc % two32) := by
  by_cases c1 : rem < 4
  · have e : msgxInner L bytes pos rem acc 4 =
        ⟨[(packStep acc (msgxByteWord bytes pos rem ||| (L <<< 24))) % two32],
         packStep acc (msgxByteWord bytes pos rem ||| (L <<< 24)), pos + 4, 0, true⟩ := by
      simp [msgxInner, c1]
    rw [e]
    exact ⟨msgxByteWord bytes pos rem, acc, msgxByteWord_lt bytes hbytes pos rem c1,
      rfl, rfl⟩
  · by_cases c2 : rem - 4 < 4
    · have e : msgxInner L bytes pos rem acc 4 =
          ⟨[(packStep acc (msgxByteWord bytes pos rem)) % two32,
            (packStep (packStep acc (msgxByteWord bytes pos rem))
              (msgxByteWord bytes (pos + 4) (rem - 4) ||| (L <<< 24))) % two32],
           packStep (packStep acc (msgxByteWord bytes pos rem))
             (msgxByteWord bytes (pos + 4) (rem - 4) ||| (L <<< 24)),
           pos + 4 + 4, 0, true⟩ := by
        simp [msgxInner, c1, c2]
      rw [e]
      exact ⟨msgxByteWord bytes (pos + 4) (rem - 4), _,
        msgxByteWord_lt bytes hbytes (pos + 4) (rem - 4) c2, rfl, rfl⟩
    · by_cases c3 : rem - 4 - 4 < 4
      · have e : msgxInner L bytes pos rem acc 4 =
            ⟨[(packStep acc (msgxByteWord bytes pos rem)) % two32,
              (packStep (packStep acc (msgxByteWord bytes pos rem))
                (msgxByteWord bytes (pos + 4) (rem - 4))) % two32,
              (packStep (packStep (packStep acc (msgxByteWord bytes pos rem))
                (msgxByteWord bytes (pos + 4) (rem - 4)))
                (msgxByteWord bytes (pos + 4 + 4) (rem - 4 - 4) ||| (L <<< 24))) % two32],
             packStep (packStep (packStep acc (msgxByteWord bytes pos rem))
               (msgxByteWord bytes (pos + 4) (rem - 4)))
               (msgxByteWord bytes (pos + 4 + 4) (rem - 4 - 4) ||| (L <<< 24)),
             pos + 4 + 4 + 4, 0, true⟩ := by
          simp [msgxInner, c1, c2, c3]
        rw [e]
        exact ⟨msgxByteWord bytes (pos + 4 + 4) (rem - 4 - 4), _,
          msgxByteWord_lt bytes hbytes (pos + 4 + 4) (rem - 4 - 4) c3, rfl, rfl⟩
      · have c4 : rem - 4 - 4 - 4 < 4 := by omega
        have e : msgxInner L bytes pos rem acc 4 =
            ⟨[(packStep acc (msgxByteWord bytes pos rem)) % two32,
              (packStep (packStep acc (msgxByteWord bytes pos rem))
                (msgxByteWord bytes (pos + 4) (rem - 4))) % two32,
              (packStep (packStep (packStep acc (msgxByteWord bytes pos rem))
                (msgxByteWord bytes (pos + 4) (rem - 4)))
                (msgxByteWord bytes (pos + 4 + 4) (rem - 4 - 4))) % two32,
              (packStep (packStep (packStep (packStep acc
                (msgxByteWord bytes pos rem))
                (msgxByteWord bytes (pos + 4) (rem - 4)))
                (msgxByteWord bytes (pos + 4 + 4) (rem - 4 - 4)))
                (msgxByteWord bytes (pos + 4 + 4 + 4) (rem - 4 - 4 - 4) |||
                  (L <<< 24))) % two32],
             packStep (packStep (packStep (packStep acc
               (msgxByteWord bytes pos rem))
               (msgxByteWord bytes (pos + 4) (rem - 4)))
               (msgxByteWord bytes (pos + 4 + 4) (rem - 4 - 4)))
               (msgxByteWord bytes (pos + 4 + 4 + 4) (rem - 4 - 4 - 4) ||| (L <<< 24)),
             pos + 4 + 4 + 4 + 4, 0, true⟩ := by
          simp [msgxInner, c1, c2, c3, c4]
        rw [e]
        exact ⟨msgxByteWord bytes (pos + 4 + 4 + 4) (rem - 4 - 4 - 4), _,
          msgxByteWord_lt bytes hbytes (pos + 4 + 4 + 4) (rem - 4 - 4 - 4) c4, rfl, rfl⟩

theorem fmt_testBit_of_clear (ts1 b31 k : Nat) (hts : ts1.testBit (22 + k) = false)
    (hk : k < 10) :
    (ts1 ||| ((b31 <<< 22) % two32)).testBit (22 + k) = b31.testBit k := by
  rw [Nat.testBit_lor, hts, Bool.false_or]
  show ((b31 <<< 22) % 2 ^ 32).testBit (22 + k) = _
  rw [Nat.testBit_mod_two_pow, Nat.testBit_shiftLeft,
    decide_eq_true (by omega : 22 + k < 32),
    decide_eq_true (by omega : 22 + k ≥ 22), Bool.true_and, Bool.true_and,
    Nat.add_sub_cancel_left]

theorem msgxTsWord_testBit22 (ts key : Nat) :
    (msgxTsWord stdCfg ts key).testBit 22 = false := by
  simp only [msgxTsWord]
  rw [Nat.testBit_lor, Nat.testBit_lor,
    testBit_eq_false_of_lt_le (rteTimestamp_lt_pow ts) (le_refl 22)]
  have h2 : ((key <<< (32 - (stdCfg.fmtIdBits - 4))) % two32).testBit 22 = false := by
    show ((key <<< 26) % 2 ^ 32).testBit 22 = false
    rw [Nat.testBit_mod_two_pow, Nat.testBit_shiftLeft,
      decide_eq_false (by omega : ¬ 22 ≥ 26), Bool.false_and, Bool.and_false]
  have h3 : (1 : Nat).testBit 22 = false :=
    testBit_eq_false_of_lt_le (i := 1) (by norm_num) (by omega)
  rw [h2, h3]
  rfl

theorem lor_shiftRight_high (w L k : Nat) (hw : w < 2 ^ k) :
    (w ||| (L <<< k)) >>> k = L := by
  apply Nat.eq_of_testBit_eq
  intro i
  rw [Nat.testBit_shiftRight, Nat.testBit_lor, Nat.testBit_shiftLeft,
    testBit_eq_false_of_lt_le hw (by omega), decide_eq_true (by omega : k + i ≥ k),
    Bool.true_and, Nat.add_sub_cancel_left, Bool.false_or]

theorem W_lt_two32 (w L : Nat) (hw : w < 2 ^ 24) (hL : L < 256) :
    (w ||| (L <<< 24)) < two32 := by
  have h32 : two32 = 2 ^ 32 := by norm_num [two32]
  rw [h32]
  apply Nat.or_lt_two_pow
  · omega
  · rw [Nat.shiftLeft_eq]
    omega

set_option maxHeartbeats 4000000 in
/-- The last subpacket written by the outer loop of __rte_msgx ends with an
FMT word, its last DATA word is the length-carrying word shifted left by
one bit, and the harvested bit at position 22 of that FMT word is bit 31 of
the length-carrying word. -/
theorem msgxOuter_last (tsW L : Nat) (bytes : List Nat)
    (hbytes : ∀ b ∈ bytes, b < 256) (hL : L < 256)
    (htsbit : tsW.testBit 22 = false) :
    ∀ rem buffer idx pos,
    ∃ stored fmtw,
      (msgxOuter stdCfg tsW L bytes buffer idx pos rem).2.getLast? =
        some (stored ++ [fmtw]) ∧
      ∃ w, w < 2 ^ 24 ∧
        stored.getLast? = some (((w ||| (L <<< 24)) <<< 1) % two32) ∧
        fmtw.testBit 22 = (w ||| (L <<< 24)).testBit 31 := by
  intro rem
  induction rem using Nat.strong_induction_on with
  | _ rem ih =>
    intro buffer idx pos
    rw [msgxOuter]
    by_cases hf : (msgxInner L bytes pos rem 0 4).finished = true
    · rw [dif_pos hf]
      have hrem : rem < 16 := by
        by_contra hc
        have := ((msgxInner_run4 L bytes pos rem 0).2 (by omega)).1
        rw [hf] at this
        simp at this
      obtain ⟨w, accPrev, hw, hacc, hlast⟩ :=
        msgxInner_final L bytes pos rem 0 hrem hbytes
      have hW := W_lt_two32 w L hw hL
      refine ⟨(msgxInner L bytes pos rem 0 4).stored,
        tsW ||| ((((msgxInner L bytes pos rem 0 4).acc / two32) <<<
          (32 - stdCfg.fmtIdBits)) % two32), by simp, w, hw, ?_, ?_⟩
      · rw [hlast, hacc, packStep_mod, shl_one_mod]
      · have e1 : (tsW ||| ((((msgxInner L bytes pos rem 0 4).acc / two32) <<<
            (32 - stdCfg.fmtIdBits)) % two32)).testBit 22 =
            ((msgxInner L bytes pos rem 0 4).acc / two32).testBit 0 := by
          show (tsW ||| ((((msgxInner L bytes pos rem 0 4).acc / two32) <<< 22)
            % two32)).testBit (22 + 0) = _
          exact fmt_testBit_of_clear _ _ 0 htsbit (by omega)
        rw [e1, Nat.testBit_to_div_mod, Nat.testBit_to_div_mod]
        apply decide_eq_decide.mpr
        have e2 : (msgxInner L bytes pos rem 0 4).acc / two32 % 2 =
            (w ||| (L <<< 24)) / two31 := by
          rw [hacc, packStep_parity _ _ hW]
        simp only [pow_zero, Nat.div_one, pow_succ]
        rw [e2]
        simp only [two31, two32] at *
        omega
    · rw [dif_neg hf]
      have hge : 16 ≤ rem := by
        by_contra hc
        exact hf ((msgxInner_run4 L bytes pos rem 0).1 (by omega))
      have hrem2 := ((msgxInner_run4 L bytes pos rem 0).2 hge).2.1
      obtain ⟨stored, fmtw, hlast, hrest⟩ := ih ((msgxInner L bytes pos rem 0 4).remaining)
        (by omega) (writeWords buffer idx ((msgxInner L bytes pos rem 0 4).stored ++
          [tsW ||| ((((msgxInner L bytes pos rem 0 4).acc / two32) <<<
            (32 - stdCfg.fmtIdBits)) % two32)]))
        (RTE_LIMIT_INDEX stdCfg (idx + 5)) (msgxInner L bytes pos rem 0 4).pos
      refine ⟨stored, fmtw, ?_, hrest⟩
      have hne : (msgxOuter stdCfg tsW L bytes
          (writeWords buffer idx ((msgxInner L bytes pos rem 0 4).stored ++
            [tsW ||| ((((msgxInner L bytes pos rem 0 4).acc / two32) <<<
              (32 - stdCfg.fmtIdBits)) % two32)]))
          (RTE_LIMIT_INDEX stdCfg (idx + 5)) (msgxInner L bytes pos rem 0 4).pos
          (msgxInner L bytes pos rem 0 4).remaining).2 ≠ [] := by
        intro hnil
        rw [hnil] at hlast
        simp at hlast
      simp only
      rw [show ∀ (a : List Nat) (l : List (List Nat)), a :: l = [a] ++ l from
        fun a l => rfl, List.getLast?_append_of_ne_nil _ hne]
      exact hlast

set_option maxHeartbeats 4000000 in
/-- C8: for every admitted __rte_msgx call with data_length L within the
configured cap, the buffer update is the outer packing loop, and the last
subpacket's last DATA word is the length-carrying word (low 24 bits source
bytes, top byte L) stored SHIFTED LEFT BY ONE bit modulo 2^32; undoing the
shift and restoring the harvested bit 31 from the FMT word recovers a word
whose top 8 bits equal L exactly. -/
theorem msgx_embedded_length (st : Rtedbg) (ts key L : Nat) (bytes : List Nat)
    (hL : L ≤ RTE_MAX_MSGX_SIZE stdCfg - 1)
    (hbytes : ∀ b ∈ bytes, b < 256)
    (hg : RTE_MESSAGE_DISABLED stdCfg st.filter key 4 = false) :
    (__rte_msgx stdCfg st ts key bytes L).buffer =
      (msgxOuter stdCfg (msgxTsWord stdCfg ts key) L bytes st.buffer
        (RTE_LIMIT_INDEX stdCfg st.buf_index) 0 L).1 ∧
    ∃ stored fmtw,
      (msgxOuter stdCfg (msgxTsWord stdCfg ts key) L bytes st.buffer
        (RTE_LIMIT_INDEX stdCfg st.buf_index) 0 L).2.getLast? =
        some (stored ++ [fmtw]) ∧
      ∃ w, w < 2 ^ 24 ∧
        stored.getLast? = some (((w ||| (L <<< 24)) <<< 1) % two32) ∧
        (((w ||| (L <<< 24)) <<< 1) % two32) >>> 1 |||
          ((if fmtw.testBit 22 then 1 else 0) <<< 31) = w ||| (L <<< 24) ∧
        (w ||| (L <<< 24)) >>> 24 = L := by
  have hL256 : L < 256 := by
    have hmax : RTE_MAX_MSGX_SIZE stdCfg = 256 := by decide
    omega
  have hnd : ¬ (L > RTE_MAX_MSGX_SIZE stdCfg - 1 ∧
      stdCfg.discardTooLongMessages = true) := by
    rintro ⟨hgt, -⟩
    omega
  have hnl : ¬ L > RTE_MAX_MSGX_SIZE stdCfg - 1 := by omega
  constructor
  · simp only [__rte_msgx]
    rw [if_neg (by simp [hg]), if_neg hnd, if_neg hnl,
      RTE_RESERVE_SPACE_success stdCfg st _ (Or.inl rfl)]
  · obtain ⟨stored, fmtw, hlast, w, hw, hst, hbit⟩ :=
      msgxOuter_last (msgxTsWord stdCfg ts key) L bytes hbytes hL256
        (msgxTsWord_testBit22 ts key) L st.buffer
        (RTE_LIMIT_INDEX stdCfg st.buf_index) 0
    exact ⟨stored, fmtw, hlast, w, hw, hst,
      recover_stored (w ||| (L <<< 24)) (W_lt_two32 w L hw hL256) _ hbit,
      lor_shiftRight_high w L 24 hw⟩

/-- Witness for the C8 theorem: a 7-byte message at stdCfg satisfies the
hypotheses and the last-subpacket conclusion. -/
theorem msgx_embedded_length_witness :
    7 ≤ RTE_MAX_MSGX_SIZE stdCfg - 1 ∧
    (∃ stored fmtw,
      (msgxOuter stdCfg (msgxTsWord stdCfg 5 (RTE_PACK_MSGX stdCfg 2 0x200)) 7
        [1, 2, 3, 4, 5, 6, 7] stdState.buffer
        (RTE_LIMIT_INDEX stdCfg stdState.buf_index) 0 7).2.getLast? =
        some (stored ++ [fmtw]) ∧
      ∃ w, w < 2 ^ 24 ∧
        stored.getLast? = some (((w ||| (7 <<< 24)) <<< 1) % two32) ∧
        (((w ||| (7 <<< 24)) <<< 1) % two32) >>> 1 |||
          ((if fmtw.testBit 22 then 1 else 0) <<< 31) = w ||| (7 <<< 24) ∧
        (w ||| (7 <<< 24)) >>> 24 = 7) :=
  ⟨by decide,
   (msgx_embedded_length stdState 5 (RTE_PACK_MSGX stdCfg 2 0x200) 7
     [1, 2, 3, 4, 5, 6, 7] (by decide) (by decide) (by decide)).2⟩

set_option maxRecDepth 40000 in
/-- Counterexample to C8 as stated: for len=7 with bytes 01..07 the DATA
words actually stored are 0x08060402 and 0x0E0E0C0A (sources shifted left
one bit), not 0x04030201 and 0x07070605; the stored last word's top byte is
0x0E, not 7, and only after the one-bit right shift does the top byte equal
the length 7. -/
theorem msgx_embedded_length_counterexample :
    (__rte_msgx smallCfg initState64 0 (RTE_PACK_MSGX smallCfg 0 0x40)
      [1, 2, 3, 4, 5, 6, 7] 7).buffer[0]? = some 0x08060402 ∧
    (__rte_msgx smallCfg initState64 0 (RTE_PACK_MSGX smallCfg 0 0x40)
      [1, 2, 3, 4, 5, 6, 7] 7).buffer[1]? = some 0x0E0E0C0A ∧
    ((0x0E0E0C0A : Nat) ≠ 0x07070605 ∧ (0x0E0E0C0A : Nat) >>> 24 ≠ 7) ∧
    ((0x08060402 : Nat) >>> 1 = 0x04030201 ∧
      (0x0E0E0C0A : Nat) >>> 1 = 0x07070605 ∧ (0x07070605 : Nat) >>> 24 = 7) := by
  have hbuf : (__rte_msgx smallCfg initState64 0 (RTE_PACK_MSGX smallCfg 0 0x40)
      [1, 2, 3, 4, 5, 6, 7] 7).buffer =
      (msgxOuter smallCfg (msgxTsWord smallCfg 0 (RTE_PACK_MSGX smallCfg 0 0x40)) 7
        [1, 2, 3, 4, 5, 6, 7] initState64.buffer
        (RTE_LIMIT_INDEX smallCfg initState64.buf_index) 0 7).1 := by
    simp only [__rte_msgx]
    rw [if_neg (by decide), if_neg (by decide), if_neg (by decide),
      RTE_RESERVE_SPACE_success smallCfg initState64 _ (Or.inl rfl)]
  rw [hbuf, msgxOuter]
  decide
